import Mathlib

set_option maxHeartbeats 1000000
set_option maxRecDepth 4000

/-!
Shallow embedding of `src/services/psdService.ts`.

The repository file contains two variants of the same module, separated by a
document marker at line 545.  The first variant (lines 1-545) uses dot-joined
path ids ("0.3.1"); the second (lines 545-933) uses dash-joined ids
("root-0-3-1").  They are embedded below in the namespaces `V1` (dot) and
`V2` (dash).

Modelling conventions:
* JS strings are lists of characters (`Str`).
* JS `number` values that the code treats as integers (layer bounds, opacity)
  are `Int`/`Nat`; values produced by division (normalized bounds, opacity in
  [0,1], target coordinates) are `ℚ`.  IEEE-754 rounding is not modelled; it
  is observable only for integers ≥ 2^53, far beyond any JS array index
  (arrays have length < 2^32), so array lookups behave identically.
* optional / possibly-`undefined` fields are `Option _`.
* the DOM canvas is modelled as a trace of drawing commands (`DrawOp`);
  `toDataURL` is abstracted to a fixed string since no claim inspects the
  encoded pixels.  `ctx.drawImage` can throw (HTML spec: InvalidStateError on
  a broken/zero-size source); this is the `broken` flag of `PixelSource`.
-/

abbrev Str := List Char

/-- Code points of JS `StrWhiteSpaceChar` (ECMA-262): TAB LF VT FF CR SP NBSP,
the Unicode Zs space separators, LS, PS and ZWNBSP. -/
def wsCodes : List Nat :=
  [9, 10, 11, 12, 13, 32, 160, 0x1680, 0x2000, 0x2001, 0x2002, 0x2003, 0x2004,
   0x2005, 0x2006, 0x2007, 0x2008, 0x2009, 0x200a, 0x2028, 0x2029, 0x202f,
   0x205f, 0x3000, 0xfeff]

def isWsChar (c : Char) : Bool := wsCodes.contains c.toNat

def isDigitChar (c : Char) : Bool := 48 ≤ c.toNat && c.toNat ≤ 57

def isHexDigitChar (c : Char) : Bool :=
  isDigitChar c || (97 ≤ c.toNat && c.toNat ≤ 102) || (65 ≤ c.toNat && c.toNat ≤ 70)

def isOctDigitChar (c : Char) : Bool := 48 ≤ c.toNat && c.toNat ≤ 55

def isBinDigitChar (c : Char) : Bool := c.toNat = 48 || c.toNat = 49

def hexDigitVal (c : Char) : Nat :=
  if isDigitChar c then c.toNat - 48
  else if 97 ≤ c.toNat then c.toNat - 87
  else c.toNat - 55

/-- JS `s.split(sep)` for a one-character separator; `"".split(sep)` is
`[""]` and a trailing separator yields a trailing empty segment. -/
def jsSplit (sep : Char) : Str → List Str
  | [] => [[]]
  | c :: cs =>
    if c = sep then [] :: jsSplit sep cs
    else
      match jsSplit sep cs with
      | [] => [[c]]
      | s :: rest => (c :: s) :: rest

/-- Leading- and trailing-whitespace trim, as `ToNumber` applies to strings. -/
def trimWs (s : Str) : Str :=
  ((s.dropWhile isWsChar).reverse.dropWhile isWsChar).reverse

/-- Canonical decimal rendering of a natural number, as JS string
interpolation renders an array index. -/
def natToChars (n : Nat) : Str :=
  if _h : n < 10 then [Char.ofNat (48 + n)]
  else natToChars (n / 10) ++ [Char.ofNat (48 + n % 10)]
  termination_by n
  decreasing_by exact Nat.div_lt_self (by omega) (by omega)

/-- Value of a string of decimal digits, most significant first. -/
def digitsToNat (s : Str) : Nat :=
  s.foldl (fun a c => 10 * a + (c.toNat - 48)) 0

/-- Result of JS `ToNumber` on a string, as far as array indexing can
observe it: `nan`, an exact integer, or a finite non-integer / infinity
(an array lookup at a non-integer or NaN index is `undefined`). -/
inductive JSNum where
  | nan : JSNum
  | int : Int → JSNum
  | noninteger : JSNum
  deriving DecidableEq, Repr

def JSNum.neg : JSNum → JSNum
  | .nan => .nan
  | .int n => .int (-n)
  | .noninteger => .noninteger

/-- Exact value of `mantissaDigits · 10 ^ (e - #fractionDigits)`:
an integer when the power of ten divides out, otherwise non-integral. -/
def mkDecimal (ip fp : Str) (e : Int) : JSNum :=
  let m : Nat := digitsToNat (ip ++ fp)
  let e2 : Int := e - fp.length
  if 0 ≤ e2 then .int (m * 10 ^ e2.toNat)
  else if (10 ^ (-e2).toNat : Nat) ∣ m then .int ((m : Int) / (10 ^ (-e2).toNat : Nat))
  else .noninteger

/-- Unsigned `StrDecimalLiteral`: `Infinity`, or digits with an optional
fraction and exponent; anything else is NaN. -/
def jsUnsignedDec (t : Str) : JSNum :=
  if t = "Infinity".data then .noninteger
  else
    let ip := t.takeWhile isDigitChar
    let r1 := t.dropWhile isDigitChar
    let fp :=
      match r1 with
      | '.' :: r => r.takeWhile isDigitChar
      | _ => []
    let r2 :=
      match r1 with
      | '.' :: r => r.dropWhile isDigitChar
      | _ => r1
    if ip = [] ∧ fp = [] then .nan
    else
      match r2 with
      | [] => mkDecimal ip fp 0
      | e :: r3 =>
        if e = 'e' ∨ e = 'E' then
          match r3 with
          | '+' :: r4 =>
            if r4 ≠ [] ∧ r4.all isDigitChar then mkDecimal ip fp (digitsToNat r4) else .nan
          | '-' :: r4 =>
            if r4 ≠ [] ∧ r4.all isDigitChar then mkDecimal ip fp (-(digitsToNat r4 : Int)) else .nan
          | _ =>
            if r3 ≠ [] ∧ r3.all isDigitChar then mkDecimal ip fp (digitsToNat r3) else .nan
        else .nan

/-- Unsigned numeric literal including the sign-less non-decimal forms
`0x…`, `0o…`, `0b…`. -/
def jsUnsignedAll (t : Str) : JSNum :=
  match t with
  | c0 :: c1 :: r =>
    if c0 = '0' ∧ (c1 = 'x' ∨ c1 = 'X') then
      if r ≠ [] ∧ r.all isHexDigitChar then .int (r.foldl (fun a c => 16 * a + hexDigitVal c) 0)
      else .nan
    else if c0 = '0' ∧ (c1 = 'o' ∨ c1 = 'O') then
      if r ≠ [] ∧ r.all isOctDigitChar then .int (r.foldl (fun a c => 8 * a + (c.toNat - 48)) 0)
      else .nan
    else if c0 = '0' ∧ (c1 = 'b' ∨ c1 = 'B') then
      if r ≠ [] ∧ r.all isBinDigitChar then .int (r.foldl (fun a c => 2 * a + (c.toNat - 48)) 0)
      else .nan
    else jsUnsignedDec (c0 :: c1 :: r)
  | _ => jsUnsignedDec t

/-- JS `Number(s)` on a string: trim whitespace, empty means 0, an optional
sign applies to the decimal forms only. -/
def jsNumber (s : Str) : JSNum :=
  match trimWs s with
  | [] => .int 0
  | c :: r =>
    if c = '+' then jsUnsignedDec r
    else if c = '-' then (jsUnsignedDec r).neg
    else jsUnsignedAll (c :: r)

/-- JS `parseInt(s, 10)`: skip leading whitespace, optional sign, then the
longest prefix of decimal digits; NaN (`none`) when there is none. -/
def jsParseInt (s : Str) : Option Int :=
  let t := s.dropWhile isWsChar
  match t with
  | '+' :: r =>
    let ds := r.takeWhile isDigitChar
    if ds = [] then none else some (digitsToNat ds)
  | '-' :: r =>
    let ds := r.takeWhile isDigitChar
    if ds = [] then none else some (-(digitsToNat ds : Int))
  | _ =>
    let ds := t.takeWhile isDigitChar
    if ds = [] then none else some (digitsToNat ds)

/-- JS `o || d` for an optional string ("" is falsy). -/
def jsOrStr (o : Option Str) (d : Str) : Str :=
  match o with
  | some s => if s = [] then d else s
  | none => d

/-- JS `o ?? d` is `Option.getD`; JS `o || d` for an optional integer
(0 is falsy). -/
def jsOrInt (o : Option Int) (d : Int) : Int :=
  match o with
  | some v => if v = 0 then d else v
  | none => d

/-- JS `o || d` for an optional rational. -/
def jsOrRat (o : Option ℚ) (d : ℚ) : ℚ :=
  match o with
  | some v => if v = 0 then d else v
  | none => d

/-- JS `o || d` for an optional unsigned size (0 is falsy). -/
def jsOrNat (o : Option Nat) (d : Nat) : Nat :=
  match o with
  | some v => if v = 0 then d else v
  | none => d

/-- JS `!o` for an optional boolean (`!undefined = true`). -/
def jsNotOpt (o : Option Bool) : Bool :=
  match o with
  | some b => !b
  | none => true

/-- JS truthiness of an optional number (`undefined` and 0 are falsy). -/
def jsTruthyRat (o : Option ℚ) : Bool :=
  match o with
  | some v => v ≠ 0
  | none => false

/-! ### Facts about the decimal rendering and decoding of array indices -/

theorem charOfNat_digit_toNat {n : Nat} (h : n < 10) :
    (Char.ofNat (48 + n)).toNat = 48 + n := by
  interval_cases n <;> decide

theorem natToChars_ne_nil (n : Nat) : natToChars n ≠ [] := by
  unfold natToChars
  split <;> simp

theorem natToChars_digits (n : Nat) : ∀ c ∈ natToChars n, isDigitChar c = true := by
  induction n using natToChars.induct with
  | case1 n h =>
    intro c hc
    unfold natToChars at hc
    simp [h] at hc
    subst hc
    simp only [isDigitChar, charOfNat_digit_toNat h, Bool.and_eq_true, decide_eq_true_eq]
    omega
  | case2 n h ih =>
    intro c hc
    unfold natToChars at hc
    simp [h] at hc
    rcases hc with hc | hc
    · exact ih c hc
    · subst hc
      have h10 : n % 10 < 10 := Nat.mod_lt _ (by omega)
      simp only [isDigitChar, charOfNat_digit_toNat h10, Bool.and_eq_true, decide_eq_true_eq]
      omega

theorem digitsToNat_append_singleton (s : Str) (c : Char) :
    digitsToNat (s ++ [c]) = 10 * digitsToNat s + (c.toNat - 48) := by
  simp [digitsToNat, List.foldl_append]

theorem digitsToNat_natToChars (n : Nat) : digitsToNat (natToChars n) = n := by
  induction n using natToChars.induct with
  | case1 n h =>
    unfold natToChars
    simp [h, digitsToNat, charOfNat_digit_toNat h]
  | case2 n h ih =>
    unfold natToChars
    have h10 : n % 10 < 10 := Nat.mod_lt _ (by omega)
    simp [h, digitsToNat_append_singleton, ih, charOfNat_digit_toNat h10]
    omega

theorem digit_toNat_bounds {c : Char} (h : isDigitChar c = true) :
    48 ≤ c.toNat ∧ c.toNat ≤ 57 := by
  simp [isDigitChar] at h
  exact h

theorem ws_of_digit_false {c : Char} (h : isDigitChar c = true) : isWsChar c = false := by
  obtain ⟨h1, h2⟩ := digit_toNat_bounds h
  simp [isWsChar, wsCodes]
  omega

theorem digit_ne_dot {c : Char} (h : isDigitChar c = true) : ¬ c = '.' := by
  obtain ⟨h1, _h2⟩ := digit_toNat_bounds h
  intro hc
  subst hc
  exact absurd h1 (by decide)

theorem dropWhile_eq_self_of_false {p : Char → Bool} :
    ∀ {s : Str}, (∀ c ∈ s, p c = false) → s.dropWhile p = s
  | [], _ => rfl
  | c :: cs, h => by
    have hc : p c = false := h c (by simp)
    simp [List.dropWhile_cons, hc]

theorem trimWs_eq_self {s : Str} (h : ∀ c ∈ s, isWsChar c = false) : trimWs s = s := by
  unfold trimWs
  rw [dropWhile_eq_self_of_false h]
  rw [dropWhile_eq_self_of_false (by intro c hc; exact h c (List.mem_reverse.mp hc))]
  exact List.reverse_reverse s

theorem takeWhile_eq_self_of_true {p : Char → Bool} :
    ∀ {s : Str}, (∀ c ∈ s, p c = true) → s.takeWhile p = s
  | [], _ => rfl
  | c :: cs, h => by
    have hc : p c = true := h c (by simp)
    simp [List.takeWhile_cons, hc]
    exact fun d hd => h d (List.mem_cons_of_mem c hd)

theorem dropWhile_eq_nil_of_true {p : Char → Bool} :
    ∀ {s : Str}, (∀ c ∈ s, p c = true) → s.dropWhile p = []
  | [], _ => rfl
  | c :: cs, h => by
    have hc : p c = true := h c (by simp)
    simp [List.dropWhile_cons, hc]
    exact fun d hd => h d (List.mem_cons_of_mem c hd)

theorem jsUnsignedDec_digits {t : Str} (hne : t ≠ []) (hd : ∀ c ∈ t, isDigitChar c = true) :
    jsUnsignedDec t = .int (digitsToNat t) := by
  have hinf : ¬ t = "Infinity".data := by
    intro he
    rcases t with _ | ⟨c, r⟩
    · exact hne rfl
    · have : c = 'I' := by
        have := congrArg (·.head?) he
        simpa using this
      have hdc := hd c (by simp)
      subst this
      simp [isDigitChar] at hdc
  unfold jsUnsignedDec
  rw [if_neg hinf]
  rw [takeWhile_eq_self_of_true hd, dropWhile_eq_nil_of_true hd]
  simp [hne, mkDecimal]

theorem jsUnsignedAll_cons_cons (c0 c1 : Char) (r : Str) :
    jsUnsignedAll (c0 :: c1 :: r) =
      if c0 = '0' ∧ (c1 = 'x' ∨ c1 = 'X') then
        if r ≠ [] ∧ r.all isHexDigitChar then
          .int (r.foldl (fun a c => 16 * a + hexDigitVal c) 0)
        else .nan
      else if c0 = '0' ∧ (c1 = 'o' ∨ c1 = 'O') then
        if r ≠ [] ∧ r.all isOctDigitChar then
          .int (r.foldl (fun a c => 8 * a + (c.toNat - 48)) 0)
        else .nan
      else if c0 = '0' ∧ (c1 = 'b' ∨ c1 = 'B') then
        if r ≠ [] ∧ r.all isBinDigitChar then
          .int (r.foldl (fun a c => 2 * a + (c.toNat - 48)) 0)
        else .nan
      else jsUnsignedDec (c0 :: c1 :: r) := rfl

theorem jsNumber_natToChars (n : Nat) : jsNumber (natToChars n) = .int n := by
  have hd := natToChars_digits n
  have hne := natToChars_ne_nil n
  have htrim : trimWs (natToChars n) = natToChars n :=
    trimWs_eq_self (fun c hc => ws_of_digit_false (hd c hc))
  obtain ⟨c, r, hnc⟩ : ∃ c r, natToChars n = c :: r := by
    rcases h' : natToChars n with _ | ⟨c, r⟩
    · exact absurd h' hne
    · exact ⟨c, r, rfl⟩
  · have hdc : isDigitChar c = true := hd c (by rw [hnc]; simp)
    have hplus : ¬ c = '+' := by
      intro hc; subst hc; simp [isDigitChar] at hdc
    have hminus : ¬ c = '-' := by
      intro hc; subst hc; simp [isDigitChar] at hdc
    have hred : jsNumber (natToChars n) =
        if c = '+' then jsUnsignedDec r
        else if c = '-' then (jsUnsignedDec r).neg
        else jsUnsignedAll (c :: r) := by
      unfold jsNumber
      rw [htrim, hnc]
    rw [hred, if_neg hplus, if_neg hminus]
    have hall : ∀ d ∈ c :: r, isDigitChar d = true := by rw [← hnc]; exact hd
    have hval : digitsToNat (c :: r) = n := by rw [← hnc]; exact digitsToNat_natToChars n
    rcases r with _ | ⟨c1, r1⟩
    · show jsUnsignedAll [c] = _
      unfold jsUnsignedAll
      rw [jsUnsignedDec_digits (by simp) hall, hval]
    · have hdc1 : isDigitChar c1 = true := hall c1 (by simp)
      rw [jsUnsignedAll_cons_cons]
      have h1 : ¬ (c = '0' ∧ (c1 = 'x' ∨ c1 = 'X')) := by
        rintro ⟨_, hc1 | hc1⟩ <;> (subst hc1; simp [isDigitChar] at hdc1)
      have h2 : ¬ (c = '0' ∧ (c1 = 'o' ∨ c1 = 'O')) := by
        rintro ⟨_, hc1 | hc1⟩ <;> (subst hc1; simp [isDigitChar] at hdc1)
      have h3 : ¬ (c = '0' ∧ (c1 = 'b' ∨ c1 = 'B')) := by
        rintro ⟨_, hc1 | hc1⟩ <;> (subst hc1; simp [isDigitChar] at hdc1)
      rw [if_neg h1, if_neg h2, if_neg h3]
      rw [jsUnsignedDec_digits (by simp) hall, hval]

/-! ### Facts about splitting dot-joined paths -/

theorem jsSplit_ne_nil (sep : Char) : ∀ s : Str, jsSplit sep s ≠ []
  | [] => by simp [jsSplit]
  | c :: cs => by
    unfold jsSplit
    split
    · simp
    · match h : jsSplit sep cs with
      | [] => exact absurd h (jsSplit_ne_nil sep cs)
      | s :: rest => simp [h]

theorem jsSplit_sep_free {sep : Char} :
    ∀ {s : Str}, (∀ c ∈ s, ¬ c = sep) → jsSplit sep s = [s]
  | [], _ => rfl
  | c :: cs, h => by
    have hc : ¬ c = sep := h c (by simp)
    have ih : jsSplit sep cs = [cs] :=
      jsSplit_sep_free (fun d hd => h d (List.mem_cons_of_mem c hd))
    unfold jsSplit
    rw [if_neg hc, ih]

theorem jsSplit_append_sep {sep : Char} {ys : Str} (hys : ∀ c ∈ ys, ¬ c = sep) :
    ∀ xs : Str, jsSplit sep (xs ++ sep :: ys) = jsSplit sep xs ++ [ys] := by
  intro xs
  induction xs with
  | nil =>
    simp only [List.nil_append]
    show jsSplit sep (sep :: ys) = jsSplit sep [] ++ [ys]
    unfold jsSplit
    rw [if_pos rfl, jsSplit_sep_free hys]
    rfl
  | cons x xs ih =>
    by_cases hx : x = sep
    · show jsSplit sep (x :: (xs ++ sep :: ys)) = jsSplit sep (x :: xs) ++ [ys]
      unfold jsSplit
      rw [if_pos hx, if_pos hx, ih]
      rfl
    · show jsSplit sep (x :: (xs ++ sep :: ys)) = jsSplit sep (x :: xs) ++ [ys]
      unfold jsSplit
      rw [if_neg hx, if_neg hx, ih]
      match h : jsSplit sep xs with
      | [] => exact absurd h (jsSplit_ne_nil sep xs)
      | s :: rest => simp [h]

/-- The path-building step of the first variant's serializer:
`path ? path + "." + index : "" + index`. -/
def pathAppend (p : Str) (i : Nat) : Str :=
  if p = [] then natToChars i else p ++ '.' :: natToChars i

/-- Ghost encoding of an index path into the id string the serializer
produces along that path. -/
def encodePath (is : List Nat) : Str :=
  is.foldl pathAppend []

theorem encodePath_snoc (is : List Nat) (i : Nat) :
    encodePath (is ++ [i]) = pathAppend (encodePath is) i := by
  simp [encodePath, List.foldl_append]

theorem pathAppend_ne_nil (p : Str) (i : Nat) : pathAppend p i ≠ [] := by
  unfold pathAppend
  split
  · exact natToChars_ne_nil i
  · simp

theorem foldl_pathAppend_ne_nil (is : List Nat) :
    ∀ acc : Str, acc ≠ [] → is.foldl pathAppend acc ≠ [] := by
  induction is with
  | nil => intro acc h; simpa using h
  | cons i is ih =>
    intro acc h
    simp only [List.foldl_cons]
    exact ih _ (pathAppend_ne_nil acc i)

theorem encodePath_ne_nil {is : List Nat} (h : is ≠ []) : encodePath is ≠ [] := by
  rcases is with _ | ⟨i, is⟩
  · exact absurd rfl h
  · show List.foldl pathAppend (pathAppend [] i) is ≠ []
    exact foldl_pathAppend_ne_nil is _ (pathAppend_ne_nil [] i)

theorem jsSplit_foldl_pathAppend (is : List Nat) :
    ∀ acc : Str, acc ≠ [] →
      jsSplit '.' (is.foldl pathAppend acc) = jsSplit '.' acc ++ is.map natToChars := by
  induction is with
  | nil => intro acc _; simp
  | cons i is ih =>
    intro acc hacc
    simp only [List.foldl_cons, List.map_cons]
    have hstep : pathAppend acc i = acc ++ '.' :: natToChars i := by
      unfold pathAppend
      rw [if_neg hacc]
    rw [ih _ (pathAppend_ne_nil acc i), hstep,
        jsSplit_append_sep (fun c hc => digit_ne_dot (natToChars_digits i c hc)) acc]
    simp

theorem jsSplit_encodePath {is : List Nat} (h : is ≠ []) :
    jsSplit '.' (encodePath is) = is.map natToChars := by
  rcases is with _ | ⟨i, is⟩
  · exact absurd rfl h
  · show jsSplit '.' (List.foldl pathAppend (pathAppend [] i) is) = _
    have h0 : pathAppend [] i = natToChars i := by unfold pathAppend; rw [if_pos rfl]
    rw [h0, jsSplit_foldl_pathAppend is _ (natToChars_ne_nil i),
        jsSplit_sep_free (fun c hc => digit_ne_dot (natToChars_digits i c hc))]
    simp

theorem decode_encodePath {is : List Nat} (h : is ≠ []) :
    (jsSplit '.' (encodePath is)).map jsNumber =
      is.map (fun n : Nat => JSNum.int (n : Int)) := by
  rw [jsSplit_encodePath h, List.map_map]
  exact List.map_congr_left (fun a _ => jsNumber_natToChars a)

/-! ### Data model: the ag-psd input tree and the service's output types -/

/-- A native layer's pixel-bearing drawable surface (`layer.canvas` in
ag-psd).  `broken` abstracts a source on which `ctx.drawImage` throws an
InvalidStateError (empty or corrupt bitmap, HTML spec). -/
structure PixelSource where
  broken : Bool
  deriving DecidableEq, Repr

/-- ag-psd `Layer`: a native tree node.  Bounds are pixel integers, opacity
the native 0-255 integer; every field may be `undefined`. -/
inductive Layer where
  | mk : (name : Option Str) → (hidden : Option Bool) → (opacity : Option Nat) →
      (top : Option Int) → (left : Option Int) → (bottom : Option Int) →
      (right : Option Int) → (canvas : Option PixelSource) →
      (children : Option (List Layer)) → Layer

def Layer.name : Layer → Option Str
  | .mk n _ _ _ _ _ _ _ _ => n

def Layer.hidden : Layer → Option Bool
  | .mk _ h _ _ _ _ _ _ _ => h

def Layer.opacity : Layer → Option Nat
  | .mk _ _ o _ _ _ _ _ _ => o

def Layer.top : Layer → Option Int
  | .mk _ _ _ t _ _ _ _ _ => t

def Layer.left : Layer → Option Int
  | .mk _ _ _ _ l _ _ _ _ => l

def Layer.bottom : Layer → Option Int
  | .mk _ _ _ _ _ b _ _ _ => b

def Layer.right : Layer → Option Int
  | .mk _ _ _ _ _ _ r _ _ => r

def Layer.canvas : Layer → Option PixelSource
  | .mk _ _ _ _ _ _ _ c _ => c

def Layer.children : Layer → Option (List Layer)
  | .mk _ _ _ _ _ _ _ _ ch => ch

theorem layer_children_sizeOf_lt {l : Layer} {cs : List Layer}
    (h : l.children = some cs) : sizeOf cs < sizeOf l := by
  cases l with
  | mk n hd o t le b r c ch =>
    simp only [Layer.children] at h
    subst h
    simp
    omega

/-- ag-psd `Psd`: canvas size (unsigned in the PSD header) and top-level
layers. -/
structure Psd where
  width : Option Nat
  height : Option Nat
  children : Option (List Layer)

structure Coords where
  x : Int
  y : Int
  w : Int
  h : Int
  deriving DecidableEq, Repr

structure NBounds where
  x : ℚ
  y : ℚ
  w : ℚ
  h : ℚ
  deriving DecidableEq, Repr

structure CanvasDims where
  width : Nat
  height : Nat
  deriving DecidableEq, Repr

structure ContainerDefinition where
  id : Str
  name : Str
  originalName : Str
  bounds : Coords
  normalized : NBounds
  deriving DecidableEq, Repr

structure TemplateMetadata where
  canvas : CanvasDims
  containers : List ContainerDefinition
  deriving DecidableEq, Repr

structure ValidationIssue where
  layerName : Str
  containerName : Str
  type : Str
  message : Str
  deriving DecidableEq, Repr

structure DesignValidationReport where
  isValid : Bool
  issues : List ValidationIssue
  deriving DecidableEq, Repr

/-- The lightweight serialized layer node. -/
inductive SerializableLayer where
  | mk : (id : Str) → (name : Str) → (type : Str) → (isVisible : Bool) →
      (opacity : ℚ) → (coords : Coords) →
      (children : Option (List SerializableLayer)) → SerializableLayer

def SerializableLayer.id : SerializableLayer → Str
  | .mk i _ _ _ _ _ _ => i

def SerializableLayer.name : SerializableLayer → Str
  | .mk _ n _ _ _ _ _ => n

def SerializableLayer.type : SerializableLayer → Str
  | .mk _ _ t _ _ _ _ => t

def SerializableLayer.isVisible : SerializableLayer → Bool
  | .mk _ _ _ v _ _ _ => v

def SerializableLayer.opacity : SerializableLayer → ℚ
  | .mk _ _ _ _ o _ _ => o

def SerializableLayer.coords : SerializableLayer → Coords
  | .mk _ _ _ _ _ c _ => c

def SerializableLayer.children : SerializableLayer → Option (List SerializableLayer)
  | .mk _ _ _ _ _ _ ch => ch

theorem Serializablelayer_children_sizeOf_lt {s : SerializableLayer}
    {cs : List SerializableLayer} (h : s.children = some cs) :
    sizeOf cs < sizeOf s := by
  cases s with
  | mk i n t v o c ch =>
    simp only [SerializableLayer.children] at h
    subst h
    simp
    omega

/-- Target-space coordinates of a transformed layer (may be fractional). -/
structure RCoords where
  x : ℚ
  y : ℚ
  w : ℚ
  h : ℚ
  deriving DecidableEq, Repr

structure Transform where
  rotation : Option ℚ
  scale : Option ℚ
  deriving DecidableEq, Repr

/-- A node of the externally produced transformed render plan. -/
inductive TransformedLayer where
  | mk : (id : Str) → (type : Str) → (isVisible : Bool) → (opacity : ℚ) →
      (coords : RCoords) → (transform : Transform) →
      (children : Option (List TransformedLayer)) → TransformedLayer

def TransformedLayer.id : TransformedLayer → Str
  | .mk i _ _ _ _ _ _ => i

def TransformedLayer.type : TransformedLayer → Str
  | .mk _ t _ _ _ _ _ => t

def TransformedLayer.isVisible : TransformedLayer → Bool
  | .mk _ _ v _ _ _ _ => v

def TransformedLayer.opacity : TransformedLayer → ℚ
  | .mk _ _ _ o _ _ _ => o

def TransformedLayer.coords : TransformedLayer → RCoords
  | .mk _ _ _ _ c _ _ => c

def TransformedLayer.transform : TransformedLayer → Transform
  | .mk _ _ _ _ _ t _ => t

def TransformedLayer.children : TransformedLayer → Option (List TransformedLayer)
  | .mk _ _ _ _ _ _ ch => ch

theorem Transformedlayer_children_sizeOf_lt {l : TransformedLayer}
    {cs : List TransformedLayer} (h : l.children = some cs) :
    sizeOf cs < sizeOf l := by
  cases l with
  | mk i t v o c tr ch =>
    simp only [TransformedLayer.children] at h
    subst h
    simp
    omega

structure TargetMetrics where
  w : ℚ
  h : ℚ
  x : Option ℚ
  y : Option ℚ
  deriving DecidableEq, Repr

structure PayloadMetrics where
  target : TargetMetrics
  deriving DecidableEq, Repr

structure TransformedPayload where
  metrics : PayloadMetrics
  layers : List TransformedLayer
  previewUrl : Option Str

/-- One recorded 2D-context command.  `rotateDeg d` records the call
`ctx.rotate(d * Math.PI / 180)` by its degree argument. -/
inductive DrawOp where
  | save : DrawOp
  | restore : DrawOp
  | setAlpha : ℚ → DrawOp
  | setFill : Str → DrawOp
  | setFillGradient : ℚ → ℚ → ℚ → ℚ → DrawOp
  | setStroke : Str → DrawOp
  | setLineWidth : ℚ → DrawOp
  | setFont : Str → DrawOp
  | fillRect : ℚ → ℚ → ℚ → ℚ → DrawOp
  | strokeRect : ℚ → ℚ → ℚ → ℚ → DrawOp
  | fillText : Str → ℚ → ℚ → DrawOp
  | translate : ℚ → ℚ → DrawOp
  | rotateDeg : ℚ → DrawOp
  | drawImage : PixelSource → ℚ → ℚ → ℚ → ℚ → DrawOp
  deriving DecidableEq, Repr

/-- `ctx.drawImage`: throws on a broken source, otherwise records the call. -/
def drawImagePrim (src : PixelSource) (x y w h : ℚ) : Except Unit DrawOp :=
  if src.broken then .error () else .ok (.drawImage src x y w h)

def templateMarker : Str := "!!TEMPLATE".data

/-- `psd.children?.find(child => child.name === '!!TEMPLATE')`. -/
def templateGroupOf (psd : Psd) : Option Layer :=
  psd.children.bind (List.find? (fun c => decide (c.name = some templateMarker)))

/-- `rawName.replace(/^!!/, '')`. -/
def stripBangs (s : Str) : Str :=
  match s with
  | '!' :: '!' :: r => r
  | _ => s

/-- `cleanName.replace(/\s+/g, '_')`: each maximal whitespace run becomes one
underscore. -/
def squashWs (s : Str) : Str :=
  (s.foldr
    (fun c acc =>
      if isWsChar c then
        (true, if acc.1 then acc.2 else '_' :: acc.2)
      else (false, c :: acc.2))
    ((false, []) : Bool × Str)).2

/-! ### First variant (lines 1-545 of the source; dot-joined path ids) -/

namespace V1

/-- One `ContainerDefinition` from a direct template child
(`extractTemplateMetadata`, first variant). -/
def mkContainer (cw chh : Nat) (index : Nat) (child : Layer) : ContainerDefinition :=
  let top := child.top.getD 0
  let left := child.left.getD 0
  let bottom := child.bottom.getD 0
  let right := child.right.getD 0
  let width := right - left
  let height := bottom - top
  let rawName := jsOrStr child.name "Untitled".data
  let cleanName := stripBangs rawName
  { id := "container-".data ++ natToChars index ++ '-' :: squashWs cleanName
    name := cleanName
    originalName := rawName
    bounds := ⟨left, top, width, height⟩
    normalized :=
      ⟨(left : ℚ) / (cw : ℚ), (top : ℚ) / (chh : ℚ),
       (width : ℚ) / (cw : ℚ), (height : ℚ) / (chh : ℚ)⟩ }

/-- `extractTemplateMetadata` (first variant): canvas size defaulted to 1,
one container per direct child of the `!!TEMPLATE` group. -/
def extractTemplateMetadata (psd : Psd) : TemplateMetadata :=
  let canvasWidth := jsOrNat psd.width 1
  let canvasHeight := jsOrNat psd.height 1
  let containers :=
    match templateGroupOf psd with
    | some g =>
      match g.children with
      | some cs => cs.enum.map (fun p => mkContainer canvasWidth canvasHeight p.1 p.2)
      | none => []
    | none => []
  ⟨⟨canvasWidth, canvasHeight⟩, containers⟩

/-- `containerMap.get(name)`: a JS `Map` built by successive `set` calls
returns the last definition bearing the name. -/
def lookupLast (cs : List ContainerDefinition) (n : Str) : Option ContainerDefinition :=
  cs.foldl (fun acc c => if c.name = n then some c else acc) none

/-- The template-literal message `Layer '${layer.name}' extends outside
'${container.name}' container.`; an absent name interpolates as
"undefined". -/
def violationMessage (layerName : Option Str) (containerName : Str) : Str :=
  let q : Char := Char.ofNat 39
  "Layer ".data ++ q :: (layerName.getD "undefined".data) ++ q ::
    " extends outside ".data ++ q :: containerName ++ q :: " container.".data

/-- Issues contributed by one direct child of a matched design group:
checked only when all four bounds are numeric, flagged exactly when the box
leaves the container on some edge. -/
def childIssue (container : ContainerDefinition) (layer : Layer) : List ValidationIssue :=
  match layer.top, layer.left, layer.bottom, layer.right with
  | some t, some l, some b, some r =>
    let containerRight := container.bounds.x + container.bounds.w
    let containerBottom := container.bounds.y + container.bounds.h
    if l < container.bounds.x ∨ t < container.bounds.y ∨
        r > containerRight ∨ b > containerBottom then
      [{ layerName := jsOrStr layer.name "Untitled Layer".data
         containerName := container.name
         type := "PROCEDURAL_VIOLATION".data
         message := violationMessage layer.name container.name }]
    else []
  | _, _, _, _ => []

/-- Issues contributed by one top-level group (`mapLayersToContainers` body,
first variant): the template root is skipped, a group with a falsy name or
no matching container contributes nothing. -/
def groupIssues (template : TemplateMetadata) (group : Layer) : List ValidationIssue :=
  if group.name = some templateMarker then []
  else
    match group.name with
    | some n =>
      if n = [] then []
      else
        match lookupLast template.containers n with
        | some container => (group.children.getD []).flatMap (childIssue container)
        | none => []
    | none => []

/-- `mapLayersToContainers` (first variant). -/
def mapLayersToContainers (psd : Psd) (template : TemplateMetadata) :
    DesignValidationReport :=
  let issues := (psd.children.getD []).flatMap (groupIssues template)
  ⟨decide (issues.length = 0), issues⟩

/-- The `layers.forEach((child, index) => …)` body of `getCleanLayerTree`
(first variant), with the running index explicit.  A `!!TEMPLATE` node is
skipped (with its whole subtree) at every level, but the index keeps
counting the native array. -/
def serializeGo (path : Str) : List Layer → Nat → List SerializableLayer
  | [], _ => []
  | c :: rest, i =>
    if c.name = some templateMarker then serializeGo path rest (i + 1)
    else
      let currentPath := pathAppend path i
      let top := c.top.getD 0
      let left := c.left.getD 0
      let bottom := c.bottom.getD 0
      let right := c.right.getD 0
      SerializableLayer.mk currentPath
        (jsOrStr c.name ("Layer ".data ++ natToChars i))
        (match c.children with
         | some _ => "group".data
         | none => "layer".data)
        (jsNotOpt c.hidden)
        ((c.opacity.getD 255 : ℚ) / 255)
        ⟨left, top, right - left, bottom - top⟩
        (match h : c.children with
         | some cs => some (serializeGo currentPath cs 0)
         | none => none)
      :: serializeGo path rest (i + 1)
  termination_by ls _ => sizeOf ls
  decreasing_by
  · simp only [List.cons.sizeOf_spec]
    omega
  · have hlt : sizeOf cs < sizeOf c := layer_children_sizeOf_lt h
    simp only [List.cons.sizeOf_spec]
    omega
  · simp only [List.cons.sizeOf_spec]
    omega

/-- `getCleanLayerTree` (first variant). -/
def getCleanLayerTree (layers : List Layer) (path : Str := []) : List SerializableLayer :=
  serializeGo path layers 0

/-- JS `currentLayers[index]` for the decoded `Number` of a path segment:
`undefined` (none) for NaN, non-integers, negatives and out-of-range. -/
def jsIdx (cur : Option (List Layer)) (i : JSNum) : Option Layer :=
  match cur, i with
  | some ls, .int n => if 0 ≤ n then ls[n.toNat]? else none
  | _, _ => none

/-- The `for (const index of indices)` walk of `findLayerByPath` (first
variant), carrying `currentLayers` and `targetLayer`. -/
def walk : Option (List Layer) → Option Layer → List JSNum → Option Layer
  | _, tgt, [] => tgt
  | cur, _, i :: rest =>
    match jsIdx cur i with
    | none => none
    | some l => walk l.children (some l) rest

/-- `findLayerByPath` (first variant): split on '.', map `Number`, walk. -/
def findLayerByPath (psd : Psd) (pathId : Str) : Option Layer :=
  if pathId = [] then none
  else walk psd.children none ((jsSplit '.' pathId).map jsNumber)

end V1

namespace V1

/-- Inputs threaded through `drawLayers` (first variant): the pixel-source
tree and the enclosing closure's `w`, `h` and `payload.previewUrl`. -/
structure Ctx where
  psd : Psd
  w : ℚ
  h : ℚ
  previewUrl : Option Str

/-- The AABB culling test: the layer's target box lies entirely off-canvas. -/
def culled (P : Ctx) (l : TransformedLayer) : Bool :=
  decide (l.coords.x > P.w ∨ l.coords.y > P.h ∨
    l.coords.x + l.coords.w < 0 ∨ l.coords.y + l.coords.h < 0)

/-- Commands of the generative-placeholder branch: ghost hint when a preview
reference exists, gradient placeholder otherwise. -/
def generativeOps (P : Ctx) (l : TransformedLayer) : List DrawOp :=
  let gx := l.coords.x
  let gy := l.coords.y
  let gw := l.coords.w
  let gh := l.coords.h
  DrawOp.setAlpha l.opacity ::
    (match P.previewUrl with
     | some _ =>
       [.setFill "rgba(192, 132, 252, 0.2)".data,
        .setStroke "rgba(192, 132, 252, 0.8)".data,
        .setLineWidth 1,
        .fillRect gx gy gw gh,
        .strokeRect gx gy gw gh,
        .setFill "#e9d5ff".data,
        .setFont "10px monospace".data,
        .fillText "AI GEN".data (gx + 4) (gy + 12)]
     | none =>
       [.setFillGradient gx gy (gx + gw) (gy + gh),
        .fillRect gx gy gw gh,
        .setStroke "rgba(168, 85, 247, 0.5)".data,
        .strokeRect gx gy gw gh])

/-- Commands of the standard pixel-layer branch: resolve the native source
over the original tree, then alpha, translate to the target-box centre,
rotate if truthy, and a `drawImage` whose failure is caught and ignored. -/
def pixelOps (P : Ctx) (l : TransformedLayer) : List DrawOp :=
  match findLayerByPath P.psd l.id with
  | some ol =>
    match ol.canvas with
    | some src =>
      let cx := l.coords.x + l.coords.w / 2
      let cy := l.coords.y + l.coords.h / 2
      [DrawOp.setAlpha l.opacity, .translate cx cy] ++
      (if jsTruthyRat l.transform.rotation then
        [DrawOp.rotateDeg (l.transform.rotation.getD 0)]
       else []) ++
      (match drawImagePrim src (-(l.coords.w) / 2) (-(l.coords.h) / 2)
          l.coords.w l.coords.h with
       | .ok op => [op]
       | .error _ => [])
    | none => []
  | none => []

mutual

/-- One iteration body of `drawLayers` (first variant): cull, skip invisible
layers, then `save`, the kind branch (`group && children` recursion,
generative placeholder, or pixel draw), then `restore`. -/
def layerOps (P : Ctx) (l : TransformedLayer) : List DrawOp :=
  if culled P l then []
  else if l.isVisible then
    DrawOp.save ::
      ((match _h : l.children with
        | some cs =>
          if l.type = "group".data then levelOps P cs
          else if l.type = "generative".data then generativeOps P l
          else pixelOps P l
        | none =>
          if l.type = "generative".data then generativeOps P l
          else pixelOps P l)
       ++ [DrawOp.restore])
  else []
  termination_by (sizeOf l, 0)
  decreasing_by
    exact Prod.Lex.left _ _ (Transformedlayer_children_sizeOf_lt _h)

/-- `drawLayers` on one sibling array (first variant): the downward
`for (let i = layers.length - 1; i >= 0; i--)` loop. -/
def levelOps (P : Ctx) (ls : List TransformedLayer) : List DrawOp :=
  loopOps P ls ls.length
  termination_by (sizeOf ls, ls.length + 1)
  decreasing_by
    exact Prod.Lex.right _ (by omega)

/-- `loopOps P ls i` runs the loop body at indices `i-1, i-2, …, 0`. -/
def loopOps (P : Ctx) (ls : List TransformedLayer) : Nat → List DrawOp
  | 0 => []
  | i + 1 =>
    (match _h : ls[i]? with
     | some l => layerOps P l
     | none => []) ++ loopOps P ls i
  termination_by i => (sizeOf ls, i)
  decreasing_by
  · exact Prod.Lex.left _ _ (List.sizeOf_lt_of_mem (List.getElem?_mem _h))
  · exact Prod.Lex.right _ (by omega)

end

/-- The background fill executed before the tree walk. -/
def initOps (p : TransformedPayload) : List DrawOp :=
  [.setFill "#0f172a".data,
   .fillRect 0 0 p.metrics.target.w p.metrics.target.h]

/-- The encoded snapshot `canvas.toDataURL('image/jpeg', 0.9)`; content
abstracted, only its presence is observable to callers. -/
def jpegUrl : Str := "data:image/jpeg".data

def mkCtx (p : TransformedPayload) (s : Psd) : Ctx :=
  ⟨s, p.metrics.target.w, p.metrics.target.h, p.previewUrl⟩

/-- `compositePayloadToCanvas` (first variant): null only for a missing
payload/psd or an unacquirable context; there is no target-size guard.
Returns the trace of issued canvas commands together with the data URL. -/
def compositePayloadToCanvas (payload : Option TransformedPayload)
    (psd : Option Psd) (ctxOk : Bool) : Option (List DrawOp × Str) :=
  match payload, psd with
  | some p, some s =>
    if ctxOk then some (initOps p ++ levelOps (mkCtx p s) p.layers, jpegUrl)
    else none
  | _, _ => none

end V1

/-! ### Second variant (lines 545-933 of the source; dash-joined ids) -/

namespace V2

/-- One `ContainerDefinition` from a direct template child
(`extractTemplateMetadata`, second variant): same geometry, but the id is
`container-<index>` and an unnamed child defaults to `Container <index>`. -/
def mkContainer (cw chh : Nat) (index : Nat) (child : Layer) : ContainerDefinition :=
  let top := child.top.getD 0
  let left := child.left.getD 0
  let bottom := child.bottom.getD 0
  let right := child.right.getD 0
  let width := right - left
  let height := bottom - top
  let rawName := jsOrStr child.name ("Container ".data ++ natToChars index)
  let cleanName := stripBangs rawName
  { id := "container-".data ++ natToChars index
    name := cleanName
    originalName := rawName
    bounds := ⟨left, top, width, height⟩
    normalized :=
      ⟨(left : ℚ) / (cw : ℚ), (top : ℚ) / (chh : ℚ),
       (width : ℚ) / (cw : ℚ), (height : ℚ) / (chh : ℚ)⟩ }

/-- `extractTemplateMetadata` (second variant). -/
def extractTemplateMetadata (psd : Psd) : TemplateMetadata :=
  let canvasWidth := jsOrNat psd.width 1
  let canvasHeight := jsOrNat psd.height 1
  let containers :=
    match templateGroupOf psd with
    | some g =>
      match g.children with
      | some cs => cs.enum.map (fun p => mkContainer canvasWidth canvasHeight p.1 p.2)
      | none => []
    | none => []
  ⟨⟨canvasWidth, canvasHeight⟩, containers⟩

/-- `mapLayersToContainers` (second variant): only an emptiness check; no
containment test of any design layer against any container. -/
def mapLayersToContainers (psd : Psd) (_template : TemplateMetadata) :
    DesignValidationReport :=
  let designRoot :=
    psd.children.bind (List.find? (fun c => decide (¬ c.name = some templateMarker)))
  let issues : List ValidationIssue :=
    if designRoot.isNone ∧ (psd.children.isNone ∨ (psd.children.getD []).length = 0) then
      [{ layerName := "Root".data
         containerName := "Global".data
         type := "PROCEDURAL_VIOLATION".data
         message := "PSD appears empty or missing design layers.".data }]
    else []
  ⟨decide (issues.length = 0), issues⟩

/-- The `layers.map((layer, index) => …)` body of `getCleanLayerTree`
(second variant): dash-joined ids under a parent id, and no filtering of the
template marker at any level. -/
def serializeGo (parentId : Str) : List Layer → Nat → List SerializableLayer
  | [], _ => []
  | c :: rest, i =>
    let id := parentId ++ '-' :: natToChars i
    SerializableLayer.mk id
      (jsOrStr c.name ("Layer ".data ++ natToChars i))
      (match c.children with
       | some _ => "group".data
       | none => "layer".data)
      (jsNotOpt c.hidden)
      (match c.opacity with
       | some o => (o : ℚ) / 255
       | none => 1)
      ⟨jsOrInt c.left 0, jsOrInt c.top 0,
       jsOrInt c.right 0 - jsOrInt c.left 0,
       jsOrInt c.bottom 0 - jsOrInt c.top 0⟩
      (match _h : c.children with
       | some cs => some (serializeGo id cs 0)
       | none => none)
    :: serializeGo parentId rest (i + 1)
  termination_by ls _ => sizeOf ls
  decreasing_by
  · have hlt : sizeOf cs < sizeOf c := layer_children_sizeOf_lt _h
    simp only [List.cons.sizeOf_spec]
    omega
  · simp only [List.cons.sizeOf_spec]
    omega

/-- `getCleanLayerTree` (second variant). -/
def getCleanLayerTree (layers : List Layer) (parentId : Str := "root".data) :
    List SerializableLayer :=
  serializeGo parentId layers 0

/-- The `for (const idx of indices)` loop of `findLayerByPath` (second
variant).  `idx >= currentLayers.length` is false for NaN and for negative
indices, so `currentLayers[idx]` is then `undefined` and the subsequent
`currentLayer.children` access throws a TypeError (modelled as `.error`). -/
def findLoop : Option (List Layer) → Option Layer → List (Option Int) →
    Except Unit (Option Layer)
  | _, cur, [] => .ok cur
  | curLayers, _cur, idx :: rest =>
    match curLayers with
    | none => .ok none
    | some ls =>
      if (match idx with
          | some i => decide ((ls.length : Int) ≤ i)
          | none => false) then .ok none
      else
        match (match idx with
               | some i => if 0 ≤ i then ls[i.toNat]? else none
               | none => none) with
        | some l => findLoop l.children (some l) rest
        | none => .error ()

/-- `findLayerByPath` (second variant): expects `root-i-j-…`; splits on '-',
drops the leading `root`, `parseInt`s each segment. -/
def findLayerByPath (psd : Psd) (layerId : Str) : Except Unit (Option Layer) :=
  if layerId = [] then .ok none
  else findLoop psd.children none (((jsSplit '-' layerId).drop 1).map jsParseInt)

end V2

namespace V2

/-- Inputs threaded through `drawLayers` (second variant): the pixel-source
tree and the target offset `targetX`/`targetY`. -/
structure Ctx where
  psd : Psd
  tx : ℚ
  ty : ℚ

/-- Commands of the generative-placeholder branch (second variant). -/
def generativeOps (P : Ctx) (l : TransformedLayer) : List DrawOp :=
  let lx := l.coords.x - P.tx
  let ly := l.coords.y - P.ty
  [DrawOp.save,
   .setFill "rgba(124, 58, 237, 0.3)".data,
   .setStroke "rgba(124, 58, 237, 0.8)".data,
   .setLineWidth 1,
   .fillRect lx ly l.coords.w l.coords.h,
   .strokeRect lx ly l.coords.w l.coords.h,
   .restore]

/-- The pixel-layer branch (second variant): the resolver itself may throw
(dash-id `findLayerByPath`), and `ctx.drawImage` is not wrapped in any
try/catch, so its failure propagates. -/
def pixelOps (P : Ctx) (l : TransformedLayer) : Except Unit (List DrawOp) :=
  match findLayerByPath P.psd l.id with
  | .error e => .error e
  | .ok none => .ok []
  | .ok (some ol) =>
    match ol.canvas with
    | some src =>
      let lx := l.coords.x - P.tx
      let ly := l.coords.y - P.ty
      let rot := jsOrRat l.transform.rotation 0
      let rotOps :=
        if rot = 0 then []
        else
          [DrawOp.translate (lx + l.coords.w / 2) (ly + l.coords.h / 2),
           DrawOp.rotateDeg rot,
           DrawOp.translate (-(lx + l.coords.w / 2)) (-(ly + l.coords.h / 2))]
      match drawImagePrim src lx ly l.coords.w l.coords.h with
      | .error e => .error e
      | .ok img =>
        .ok ([DrawOp.save, DrawOp.setAlpha l.opacity] ++ rotOps ++ [img, DrawOp.restore])
    | none => .ok []

mutual

/-- One iteration body of `drawLayers` (second variant): skip invisible
nodes (children included), branch on kind, then recurse into children. -/
def layerOps (P : Ctx) (l : TransformedLayer) : Except Unit (List DrawOp) :=
  if l.isVisible then
    match (if l.type = "generative".data then .ok (generativeOps P l)
           else if l.type = "group".data then (.ok [] : Except Unit (List DrawOp))
           else pixelOps P l) with
    | .error e => .error e
    | .ok branchOps =>
      match _h : l.children with
      | some cs =>
        match levelOps P cs with
        | .error e => .error e
        | .ok childOps => .ok (branchOps ++ childOps)
      | none => .ok branchOps
  else .ok []
  termination_by (sizeOf l, 0)
  decreasing_by
    exact Prod.Lex.left _ _ (Transformedlayer_children_sizeOf_lt _h)

/-- `drawLayers` on one sibling array (second variant): the same downward
index loop. -/
def levelOps (P : Ctx) (ls : List TransformedLayer) : Except Unit (List DrawOp) :=
  loopOps P ls ls.length
  termination_by (sizeOf ls, ls.length + 1)
  decreasing_by
    exact Prod.Lex.right _ (by omega)

/-- `loopOps P ls i` runs the loop body at indices `i-1, i-2, …, 0`,
propagating the first exception. -/
def loopOps (P : Ctx) (ls : List TransformedLayer) : Nat → Except Unit (List DrawOp)
  | 0 => .ok []
  | i + 1 =>
    match _h : ls[i]? with
    | some l =>
      match layerOps P l with
      | .error e => .error e
      | .ok a =>
        match loopOps P ls i with
        | .error e => .error e
        | .ok b => .ok (a ++ b)
    | none => loopOps P ls i
  termination_by i => (sizeOf ls, i)
  decreasing_by
  · exact Prod.Lex.left _ _ (List.sizeOf_lt_of_mem (List.getElem?_mem _h))
  · exact Prod.Lex.right _ (by omega)
  · exact Prod.Lex.right _ (by omega)

end

/-- Sequential front-to-back processing of a sibling list; used to state
that the downward index loop equals processing the reversed list. -/
def chain (P : Ctx) : List TransformedLayer → Except Unit (List DrawOp)
  | [] => .ok []
  | l :: rest =>
    match layerOps P l with
    | .error e => .error e
    | .ok a =>
      match chain P rest with
      | .error e => .error e
      | .ok b => .ok (a ++ b)

/-- The encoded snapshot `canvas.toDataURL('image/png')`, abstracted. -/
def pngUrl : Str := "data:image/png".data

/-- `compositePayloadToCanvas` (second variant): guards `w <= 0 || h <= 0`
before any canvas work, then renders; a per-layer exception aborts the whole
composite because nothing catches it. -/
def compositePayloadToCanvas (payload : TransformedPayload) (psd : Psd)
    (ctxOk : Bool) : Except Unit (Option (List DrawOp × Str)) :=
  let w := payload.metrics.target.w
  let h := payload.metrics.target.h
  if w ≤ 0 ∨ h ≤ 0 then .ok none
  else if ctxOk then
    match levelOps
        ⟨psd, jsOrRat payload.metrics.target.x 0, jsOrRat payload.metrics.target.y 0⟩
        payload.layers with
    | .error e => .error e
    | .ok tr => .ok (some (tr, pngUrl))
  else .ok none

end V2

/-! ### Verification companions for the addressing claims -/

namespace V1

/-- Ghost companion of `serializeGo`: the (id, native node) pairs recorded
along the same traversal — same template filtering, same index bookkeeping,
with the id written as `encodePath` of the index path. -/
def pairsAux : List Layer → List Nat → Nat → List (Str × Layer)
  | [], _, _ => []
  | c :: rest, idxs, i =>
    (if c.name = some templateMarker then []
     else
       (encodePath (idxs ++ [i]), c) ::
         (match _h : c.children with
          | some cs => pairsAux cs (idxs ++ [i]) 0
          | none => [])) ++ pairsAux rest idxs (i + 1)
  termination_by ls _ _ => sizeOf ls
  decreasing_by
  · have hlt : sizeOf cs < sizeOf c := layer_children_sizeOf_lt _h
    simp only [List.cons.sizeOf_spec]
    omega
  · simp only [List.cons.sizeOf_spec]
    omega

/-- All ids of a serialized forest, node before its subtree, in document
order. -/
def idsDeep : List SerializableLayer → List Str
  | [] => []
  | s :: rest =>
    s.id ::
      ((match _h : s.children with
        | some cs => idsDeep cs
        | none => []) ++ idsDeep rest)
  termination_by ls => sizeOf ls
  decreasing_by
  · have hlt : sizeOf cs < sizeOf s := Serializablelayer_children_sizeOf_lt _h
    simp only [List.cons.sizeOf_spec]
    omega
  · simp only [List.cons.sizeOf_spec]
    omega

/-- Whether some node of a serialized forest bears the given name. -/
def hasNameDeep (n : Str) : List SerializableLayer → Bool
  | [] => false
  | s :: rest =>
    (decide (s.name = n)) ||
      (match _h : s.children with
       | some cs => hasNameDeep n cs
       | none => false) ||
      hasNameDeep n rest
  termination_by ls => sizeOf ls
  decreasing_by
  · have hlt : sizeOf cs < sizeOf s := Serializablelayer_children_sizeOf_lt _h
    simp only [List.cons.sizeOf_spec]
    omega
  · simp only [List.cons.sizeOf_spec]
    omega

/-- The resolver's walk hits a failing lookup (NaN / non-integer / negative
/ out-of-range index, or a missing child list) at some depth. -/
def walkFails : Option (List Layer) → List JSNum → Bool
  | _, [] => false
  | cur, i :: rest =>
    match jsIdx cur i with
    | none => true
    | some l => walkFails l.children rest

/-- `Reaches cur idxs ls`: starting from the child list `cur`, following the
index path `idxs` lands on a node whose child list is `ls` (`cur` itself for
the empty path). -/
def Reaches : Option (List Layer) → List Nat → List Layer → Prop
  | cur, [], ls => cur = some ls
  | cur, i :: rest, ls =>
    ∃ l, cur.bind (fun xs => xs[i]?) = some l ∧ Reaches l.children rest ls

end V1

namespace V1

theorem walk_tgt_irrelevant (cur : Option (List Layer)) (tgt : Option Layer)
    (x : JSNum) (rest : List JSNum) :
    walk cur tgt (x :: rest) = walk cur none (x :: rest) := by
  cases hj : jsIdx cur x <;> simp [walk, hj]

theorem walk_int_cons (cur : Option (List Layer)) (tgt : Option Layer) (i : Nat)
    (rest : List JSNum) :
    walk cur tgt (JSNum.int (i : Int) :: rest) =
      match cur.bind (fun xs => xs[i]?) with
      | none => none
      | some l => walk l.children (some l) rest := by
  cases cur with
  | none => simp [walk, jsIdx]
  | some ls =>
    have h0 : (0 : Int) ≤ (i : Int) := Int.natCast_nonneg i
    simp [walk, jsIdx, if_pos h0, Int.toNat_natCast]

theorem walk_along : ∀ (idxs : List Nat) (cur : Option (List Layer)) (ls : List Layer),
    Reaches cur idxs ls →
    ∀ (tgt : Option Layer) (x : JSNum) (rest : List JSNum),
      walk cur tgt ((idxs.map fun n : Nat => JSNum.int (n : Int)) ++ x :: rest) =
        walk (some ls) none (x :: rest) := by
  intro idxs
  induction idxs with
  | nil =>
    intro cur ls h tgt x rest
    have hcur : cur = some ls := h
    subst hcur
    simp only [List.map_nil, List.nil_append]
    exact walk_tgt_irrelevant _ tgt x rest
  | cons i idxs ih =>
    intro cur ls h tgt x rest
    obtain ⟨l, hl, hr⟩ := h
    simp only [List.map_cons, List.cons_append]
    rw [walk_int_cons, hl]
    exact ih l.children ls hr (some l) x rest

theorem Reaches_snoc : ∀ (idxs : List Nat) (cur : Option (List Layer)) (full : List Layer),
    Reaches cur idxs full → ∀ {i : Nat} {c : Layer} {cs : List Layer},
      full[i]? = some c → c.children = some cs → Reaches cur (idxs ++ [i]) cs := by
  intro idxs
  induction idxs with
  | nil =>
    intro cur full h i c cs hc hch
    have hcur : cur = some full := h
    subst hcur
    exact ⟨c, by simpa using hc, hch⟩
  | cons j idxs ih =>
    intro cur full h i c cs hc hch
    obtain ⟨l, hl, hr⟩ := h
    exact ⟨l, hl, ih l.children full hr hc hch⟩

theorem drop_cons_getElem {full : List Layer} {i : Nat} {c : Layer} {rest : List Layer}
    (h : full.drop i = c :: rest) : full[i]? = some c := by
  have hh := List.head?_drop full i
  rw [h] at hh
  exact hh.symm

theorem drop_succ_of_drop_cons {full : List Layer} {i : Nat} {c : Layer} {rest : List Layer}
    (h : full.drop i = c :: rest) : full.drop (i + 1) = rest := by
  have h2 : (full.drop i).drop 1 = full.drop (i + 1) := List.drop_drop 1 i full
  rw [h] at h2
  exact h2.symm

theorem pairsAux_nil (idxs : List Nat) (i : Nat) : pairsAux [] idxs i = [] := by
  simp [pairsAux]

theorem pairsAux_cons_tmpl (c : Layer) (ht : c.name = some templateMarker)
    (rest : List Layer) (idxs : List Nat) (i : Nat) :
    pairsAux (c :: rest) idxs i = pairsAux rest idxs (i + 1) := by
  simp [pairsAux, if_pos ht]

theorem pairsAux_cons_some (c : Layer) (cs : List Layer)
    (ht : ¬ c.name = some templateMarker) (hch : c.children = some cs)
    (rest : List Layer) (idxs : List Nat) (i : Nat) :
    pairsAux (c :: rest) idxs i =
      ((encodePath (idxs ++ [i]), c) :: pairsAux cs (idxs ++ [i]) 0) ++
        pairsAux rest idxs (i + 1) := by
  simp only [pairsAux, if_neg ht]
  split <;> simp_all

theorem pairsAux_cons_none (c : Layer) (ht : ¬ c.name = some templateMarker)
    (hch : c.children = none) (rest : List Layer) (idxs : List Nat) (i : Nat) :
    pairsAux (c :: rest) idxs i =
      (encodePath (idxs ++ [i]), c) :: pairsAux rest idxs (i + 1) := by
  simp only [pairsAux, if_neg ht]
  split <;> simp_all

theorem serializeGo_nil (path : Str) (i : Nat) : serializeGo path [] i = [] := by
  simp [serializeGo]

theorem serializeGo_cons_tmpl (c : Layer) (ht : c.name = some templateMarker)
    (path : Str) (rest : List Layer) (i : Nat) :
    serializeGo path (c :: rest) i = serializeGo path rest (i + 1) := by
  simp [serializeGo, if_pos ht]

theorem serializeGo_cons_some (c : Layer) (cs : List Layer)
    (ht : ¬ c.name = some templateMarker) (hch : c.children = some cs)
    (path : Str) (rest : List Layer) (i : Nat) :
    serializeGo path (c :: rest) i =
      SerializableLayer.mk (pathAppend path i)
        (jsOrStr c.name ("Layer ".data ++ natToChars i))
        "group".data
        (jsNotOpt c.hidden)
        ((c.opacity.getD 255 : ℚ) / 255)
        ⟨c.left.getD 0, c.top.getD 0, c.right.getD 0 - c.left.getD 0,
         c.bottom.getD 0 - c.top.getD 0⟩
        (some (serializeGo (pathAppend path i) cs 0))
      :: serializeGo path rest (i + 1) := by
  simp only [serializeGo, if_neg ht, hch]
  split <;> simp_all

theorem serializeGo_cons_none (c : Layer)
    (ht : ¬ c.name = some templateMarker) (hch : c.children = none)
    (path : Str) (rest : List Layer) (i : Nat) :
    serializeGo path (c :: rest) i =
      SerializableLayer.mk (pathAppend path i)
        (jsOrStr c.name ("Layer ".data ++ natToChars i))
        "layer".data
        (jsNotOpt c.hidden)
        ((c.opacity.getD 255 : ℚ) / 255)
        ⟨c.left.getD 0, c.top.getD 0, c.right.getD 0 - c.left.getD 0,
         c.bottom.getD 0 - c.top.getD 0⟩
        none
      :: serializeGo path rest (i + 1) := by
  simp only [serializeGo, if_neg ht, hch]
  split <;> simp_all

theorem idsDeep_nil : idsDeep [] = [] := by
  simp [idsDeep]

theorem idsDeep_cons_some (i n t : Str) (v : Bool) (o : ℚ) (co : Coords)
    (cs rest : List SerializableLayer) :
    idsDeep (SerializableLayer.mk i n t v o co (some cs) :: rest) =
      i :: (idsDeep cs ++ idsDeep rest) := by
  rw [idsDeep]
  split <;> simp_all [SerializableLayer.id, SerializableLayer.children]

theorem idsDeep_cons_none (i n t : Str) (v : Bool) (o : ℚ) (co : Coords)
    (rest : List SerializableLayer) :
    idsDeep (SerializableLayer.mk i n t v o co none :: rest) =
      i :: idsDeep rest := by
  rw [idsDeep]
  split <;> simp_all [SerializableLayer.id, SerializableLayer.children]

theorem pairsAux_fst_ne_nil : ∀ (ls : List Layer) (idxs : List Nat) (i : Nat),
    ∀ pr ∈ pairsAux ls idxs i, pr.1 ≠ [] := by
  intro ls idxs i
  induction ls, idxs, i using pairsAux.induct with
  | case1 idxs i =>
    intro pr hpr
    simp [pairsAux_nil] at hpr
  | case2 c rest idxs i ih1 ih2 =>
    intro pr hpr
    by_cases ht : c.name = some templateMarker
    · rw [pairsAux_cons_tmpl _ ht] at hpr
      exact ih2 pr hpr
    · cases hch : c.children with
      | some cs =>
        rw [pairsAux_cons_some _ _ ht hch] at hpr
        rcases List.mem_append.mp hpr with hL | hR
        · rcases List.mem_cons.mp hL with hEq | hIn
          · rw [hEq]
            exact encodePath_ne_nil (by simp)
          · exact ih1 cs hch pr hIn
        · exact ih2 pr hR
      | none =>
        rw [pairsAux_cons_none _ ht hch] at hpr
        rcases List.mem_cons.mp hpr with hEq | hIn
        · rw [hEq]
          exact encodePath_ne_nil (by simp)
        · exact ih2 pr hIn

theorem walk_none_of_fails : ∀ (xs : List JSNum) (cur : Option (List Layer))
    (tgt : Option Layer), walkFails cur xs = true → walk cur tgt xs = none := by
  intro xs
  induction xs with
  | nil =>
    intro cur tgt h
    simp [walkFails] at h
  | cons x xs ih =>
    intro cur tgt h
    cases hj : jsIdx cur x with
    | none => simp [walk, hj]
    | some l =>
      simp only [walkFails, hj] at h
      simp [walk, hj, ih l.children (some l) h]

theorem jsIdx_nan (cur : Option (List Layer)) : jsIdx cur JSNum.nan = none := by
  cases cur <;> simp [jsIdx]

theorem fails_of_nan : ∀ (segs : List Str) (cur : Option (List Layer)),
    (∃ s ∈ segs, jsNumber s = .nan) → walkFails cur (segs.map jsNumber) = true := by
  intro segs
  induction segs with
  | nil =>
    intro cur h
    simp at h
  | cons s segs ih =>
    intro cur h
    simp only [List.map_cons]
    rcases h with ⟨t, ht, hnan⟩
    rcases List.mem_cons.mp ht with heq | htl
    · have hnone : jsIdx cur (jsNumber s) = none := by
        rw [← heq, hnan]
        exact jsIdx_nan cur
      simp [walkFails, hnone]
    · cases hj : jsIdx cur (jsNumber s) with
      | none => simp [walkFails, hj]
      | some l =>
        simp only [walkFails, hj]
        exact ih l.children ⟨t, htl, hnan⟩

theorem walk_pairsAux : ∀ (suff : List Layer) (idxs : List Nat) (i : Nat),
    ∀ (full : List Layer) (cur : Option (List Layer)),
      Reaches cur idxs full → full.drop i = suff →
      ∀ pr ∈ pairsAux suff idxs i,
        walk cur none ((jsSplit '.' pr.1).map jsNumber) = some pr.2 := by
  intro suff idxs i
  induction suff, idxs, i using pairsAux.induct with
  | case1 idxs i =>
    intro full cur _ _ pr hpr
    simp [pairsAux_nil] at hpr
  | case2 c rest idxs i ih1 ih2 =>
    intro full cur hreach hdrop pr hpr
    have hgetc : full[i]? = some c := drop_cons_getElem hdrop
    have hdropS : full.drop (i + 1) = rest := drop_succ_of_drop_cons hdrop
    have hdirect : walk cur none
        ((jsSplit '.' (encodePath (idxs ++ [i]))).map jsNumber) = some c := by
      rw [decode_encodePath (by simp), List.map_append, List.map_cons, List.map_nil]
      rw [walk_along idxs cur full hreach none (JSNum.int (i : Int)) []]
      rw [walk_int_cons]
      simp [hgetc, walk]
    by_cases ht : c.name = some templateMarker
    · rw [pairsAux_cons_tmpl _ ht] at hpr
      exact ih2 full cur hreach hdropS pr hpr
    · cases hch : c.children with
      | some cs =>
        rw [pairsAux_cons_some _ _ ht hch] at hpr
        rcases List.mem_append.mp hpr with hL | hR
        · rcases List.mem_cons.mp hL with hEq | hIn
          · rw [hEq]
            exact hdirect
          · exact ih1 cs hch cs cur
              (Reaches_snoc idxs cur full hreach hgetc hch) rfl pr hIn
        · exact ih2 full cur hreach hdropS pr hR
      | none =>
        rw [pairsAux_cons_none _ ht hch] at hpr
        rcases List.mem_cons.mp hpr with hEq | hIn
        · rw [hEq]
          exact hdirect
        · exact ih2 full cur hreach hdropS pr hIn

theorem idsDeep_serializeGo : ∀ (ls : List Layer) (idxs : List Nat) (i : Nat),
    idsDeep (serializeGo (encodePath idxs) ls i) = (pairsAux ls idxs i).map Prod.fst := by
  intro ls idxs i
  induction ls, idxs, i using pairsAux.induct with
  | case1 idxs i => simp [serializeGo_nil, pairsAux_nil, idsDeep_nil]
  | case2 c rest idxs i ih1 ih2 =>
    by_cases ht : c.name = some templateMarker
    · rw [serializeGo_cons_tmpl _ ht, pairsAux_cons_tmpl _ ht]
      exact ih2
    · cases hch : c.children with
      | some cs =>
        rw [serializeGo_cons_some _ _ ht hch, pairsAux_cons_some _ _ ht hch]
        rw [← encodePath_snoc]
        rw [idsDeep_cons_some]
        rw [ih1 cs hch, ih2]
        simp
      | none =>
        rw [serializeGo_cons_none _ ht hch, pairsAux_cons_none _ ht hch]
        rw [← encodePath_snoc]
        rw [idsDeep_cons_none]
        rw [ih2]
        simp

/-! ### Painter-order and fault-confinement lemmas for the compositors -/

theorem loopOps_zero (P : Ctx) (ls : List TransformedLayer) : loopOps P ls 0 = [] := by
  simp [loopOps]

theorem loopOps_succ (P : Ctx) (ls : List TransformedLayer) (i : Nat)
    {l : TransformedLayer} (h : ls[i]? = some l) :
    loopOps P ls (i + 1) = layerOps P l ++ loopOps P ls i := by
  rw [loopOps]
  split <;> simp_all

theorem levelOps_loop (P : Ctx) (ls : List TransformedLayer) :
    levelOps P ls = loopOps P ls ls.length := by
  rw [levelOps]

theorem loopOps_eq_take (P : Ctx) (ls : List TransformedLayer) :
    ∀ i, i ≤ ls.length →
      loopOps P ls i = ((ls.take i).reverse).flatMap (layerOps P) := by
  intro i
  induction i with
  | zero => intro _; simp [loopOps_zero]
  | succ i ih =>
    intro hle
    have hi : i < ls.length := by omega
    have hsome : ls[i]? = some ls[i] := List.getElem?_eq_getElem hi
    rw [loopOps_succ P ls i hsome, ih (by omega), List.take_succ, hsome]
    rw [Option.toList_some, List.reverse_append]
    simp [List.flatMap_append]

theorem levelOps_reverse (P : Ctx) (ls : List TransformedLayer) :
    levelOps P ls = (ls.reverse).flatMap (layerOps P) := by
  rw [levelOps_loop, loopOps_eq_take P ls ls.length le_rfl, List.take_length]

end V1

namespace V2

theorem loopOps_zero_v2 (P : Ctx) (ls : List TransformedLayer) : loopOps P ls 0 = .ok [] := by
  simp [loopOps]

theorem loopOps_succ_v2 (P : Ctx) (ls : List TransformedLayer) (i : Nat)
    {l : TransformedLayer} (h : ls[i]? = some l) :
    loopOps P ls (i + 1) =
      (match layerOps P l with
       | .error e => .error e
       | .ok a =>
         match loopOps P ls i with
         | .error e => .error e
         | .ok b => .ok (a ++ b)) := by
  rw [loopOps]
  split <;> simp_all

theorem levelOps_loop_v2 (P : Ctx) (ls : List TransformedLayer) :
    levelOps P ls = loopOps P ls ls.length := by
  rw [levelOps]

theorem loopOps_eq_take_v2 (P : Ctx) (ls : List TransformedLayer) :
    ∀ i, i ≤ ls.length → loopOps P ls i = chain P ((ls.take i).reverse) := by
  intro i
  induction i with
  | zero => intro _; simp [loopOps_zero_v2, chain]
  | succ i ih =>
    intro hle
    have hi : i < ls.length := by omega
    have hsome : ls[i]? = some ls[i] := List.getElem?_eq_getElem hi
    rw [loopOps_succ_v2 P ls i hsome, ih (by omega), List.take_succ, hsome]
    rw [Option.toList_some, List.reverse_append]
    simp [chain]

theorem levelOps_chain_reverse (P : Ctx) (ls : List TransformedLayer) :
    levelOps P ls = chain P ls.reverse := by
  rw [levelOps_loop_v2, loopOps_eq_take_v2 P ls ls.length le_rfl, List.take_length]

end V2

namespace V1

theorem layerOps_pixel_some (P : Ctx) (l : TransformedLayer) (cs : List TransformedLayer)
    (hcull : culled P l = false) (hvis : l.isVisible = true) (hch : l.children = some cs)
    (ht1 : ¬ l.type = "group".data) (ht2 : ¬ l.type = "generative".data) :
    layerOps P l = DrawOp.save :: (pixelOps P l ++ [DrawOp.restore]) := by
  rw [layerOps]
  simp only [hcull, hvis, Bool.false_eq_true, if_false, if_true]
  split <;> simp_all

theorem layerOps_pixel_none (P : Ctx) (l : TransformedLayer)
    (hcull : culled P l = false) (hvis : l.isVisible = true) (hch : l.children = none)
    (ht2 : ¬ l.type = "generative".data) :
    layerOps P l = DrawOp.save :: (pixelOps P l ++ [DrawOp.restore]) := by
  rw [layerOps]
  simp only [hcull, hvis, Bool.false_eq_true, if_false, if_true]
  split <;> simp_all

theorem pixelOps_broken (P : Ctx) (l : TransformedLayer) {ol : Layer} {src : PixelSource}
    (hres : findLayerByPath P.psd l.id = some ol)
    (hcv : ol.canvas = some src) (hbr : src.broken = true) :
    pixelOps P l =
      [DrawOp.setAlpha l.opacity,
       DrawOp.translate (l.coords.x + l.coords.w / 2) (l.coords.y + l.coords.h / 2)] ++
      (if jsTruthyRat l.transform.rotation then
        [DrawOp.rotateDeg (l.transform.rotation.getD 0)]
       else []) := by
  simp [pixelOps, hres, hcv, drawImagePrim, hbr]

theorem pixelOps_ok (P : Ctx) (l : TransformedLayer) {ol : Layer} {src : PixelSource}
    (hres : findLayerByPath P.psd l.id = some ol)
    (hcv : ol.canvas = some src) (hbr : src.broken = false) :
    pixelOps P l =
      [DrawOp.setAlpha l.opacity,
       DrawOp.translate (l.coords.x + l.coords.w / 2) (l.coords.y + l.coords.h / 2)] ++
      (if jsTruthyRat l.transform.rotation then
        [DrawOp.rotateDeg (l.transform.rotation.getD 0)]
       else []) ++
      [DrawOp.drawImage src (-(l.coords.w) / 2) (-(l.coords.h) / 2)
        l.coords.w l.coords.h] := by
  simp [pixelOps, hres, hcv, drawImagePrim, hbr]

theorem hasNameDeep_nil (n : Str) : hasNameDeep n [] = false := by
  simp [hasNameDeep]

theorem hasNameDeep_cons_some (n i nm t : Str) (v : Bool) (o : ℚ) (co : Coords)
    (cs rest : List SerializableLayer) :
    hasNameDeep n (SerializableLayer.mk i nm t v o co (some cs) :: rest) =
      (decide (nm = n) || hasNameDeep n cs || hasNameDeep n rest) := by
  rw [hasNameDeep]
  split <;> simp_all [SerializableLayer.name, SerializableLayer.children]

theorem hasNameDeep_cons_none (n i nm t : Str) (v : Bool) (o : ℚ) (co : Coords)
    (rest : List SerializableLayer) :
    hasNameDeep n (SerializableLayer.mk i nm t v o co none :: rest) =
      (decide (nm = n) || hasNameDeep n rest) := by
  rw [hasNameDeep]
  split <;> simp_all [SerializableLayer.name, SerializableLayer.children]

theorem layerDefault_ne_template (i : Nat) :
    ¬ ("Layer ".data ++ natToChars i) = templateMarker := by
  intro h
  have h0 : ("Layer ".data ++ natToChars i).head? = templateMarker.head? :=
    congrArg List.head? h
  have h1 : some 'L' = some '!' := h0
  exact absurd (Option.some.inj h1) (by decide)

theorem serialName_ne_template {c : Layer} (ht : ¬ c.name = some templateMarker) (i : Nat) :
    ¬ jsOrStr c.name ("Layer ".data ++ natToChars i) = templateMarker := by
  unfold jsOrStr
  match hn : c.name with
  | some s =>
    by_cases hs : s = []
    · simp only [hs, if_true, if_pos rfl]
      exact layerDefault_ne_template i
    · simp only [if_neg hs]
      intro hcontra
      exact ht (by rw [hn, hcontra])
  | none => exact layerDefault_ne_template i

theorem serializeGo_no_template : ∀ (path : Str) (ls : List Layer) (i : Nat),
    hasNameDeep templateMarker (serializeGo path ls i) = false := by
  intro path ls i
  induction path, ls, i using serializeGo.induct with
  | case1 path i => simp [serializeGo_nil, hasNameDeep_nil]
  | case2 path c rest i hname ih =>
    rw [serializeGo_cons_tmpl _ hname]
    exact ih
  | case3 path c rest i hname cpath ihc ihr =>
    cases hch : c.children with
    | some cs =>
      rw [serializeGo_cons_some _ _ hname hch, hasNameDeep_cons_some]
      have h1 : decide (jsOrStr c.name ("Layer ".data ++ natToChars i) =
          templateMarker) = false :=
        decide_eq_false (serialName_ne_template hname i)
      have h2 : hasNameDeep templateMarker (serializeGo (pathAppend path i) cs 0) =
          false := ihc cs hch
      rw [h1, h2, ihr]
      rfl
    | none =>
      rw [serializeGo_cons_none _ hname hch, hasNameDeep_cons_none]
      have h1 : decide (jsOrStr c.name ("Layer ".data ++ natToChars i) =
          templateMarker) = false :=
        decide_eq_false (serialName_ne_template hname i)
      rw [h1, ihr]
      rfl

end V1

namespace V2

theorem serializeGo_cons_some_v2 (c : Layer) (cs : List Layer) (hch : c.children = some cs)
    (parentId : Str) (rest : List Layer) (i : Nat) :
    serializeGo parentId (c :: rest) i =
      SerializableLayer.mk (parentId ++ '-' :: natToChars i)
        (jsOrStr c.name ("Layer ".data ++ natToChars i))
        "group".data
        (jsNotOpt c.hidden)
        (match c.opacity with
         | some o => (o : ℚ) / 255
         | none => 1)
        ⟨jsOrInt c.left 0, jsOrInt c.top 0,
         jsOrInt c.right 0 - jsOrInt c.left 0,
         jsOrInt c.bottom 0 - jsOrInt c.top 0⟩
        (some (serializeGo (parentId ++ '-' :: natToChars i) cs 0))
      :: serializeGo parentId rest (i + 1) := by
  simp only [serializeGo, hch]
  split <;> split <;> simp_all

theorem serializeGo_cons_none_v2 (c : Layer) (hch : c.children = none)
    (parentId : Str) (rest : List Layer) (i : Nat) :
    serializeGo parentId (c :: rest) i =
      SerializableLayer.mk (parentId ++ '-' :: natToChars i)
        (jsOrStr c.name ("Layer ".data ++ natToChars i))
        "layer".data
        (jsNotOpt c.hidden)
        (match c.opacity with
         | some o => (o : ℚ) / 255
         | none => 1)
        ⟨jsOrInt c.left 0, jsOrInt c.top 0,
         jsOrInt c.right 0 - jsOrInt c.left 0,
         jsOrInt c.bottom 0 - jsOrInt c.top 0⟩
        none
      :: serializeGo parentId rest (i + 1) := by
  simp only [serializeGo, hch]
  split <;> split <;> simp_all

theorem layerOps_pixel_no_children (P : Ctx) (l : TransformedLayer)
    (hvis : l.isVisible = true) (ht1 : ¬ l.type = "generative".data)
    (ht2 : ¬ l.type = "group".data) (hch : l.children = none) :
    layerOps P l = pixelOps P l := by
  rw [layerOps, if_pos hvis, if_neg ht1, if_neg ht2]
  cases hpix : pixelOps P l with
  | error e => rfl
  | ok b =>
    split
    · simp_all
    · split <;> simp_all

end V2

/-! ### Concrete fixtures used by witnesses and counterexamples -/

def leafW : Layer :=
  Layer.mk (some "Leaf".data) none none (some 0) (some 0) (some 5) (some 5) none none

def tmplChildW : Layer :=
  Layer.mk (some "!!BG".data) none none (some 0) (some 0) (some 100) (some 200) none none

def tmplGroupW : Layer :=
  Layer.mk (some templateMarker) none none none none none none none (some [tmplChildW])

def groupW : Layer :=
  Layer.mk (some "G".data) none none none none none none none (some [leafW])

def psdW : Psd := ⟨some 200, some 100, some [tmplGroupW, groupW]⟩

def psdW1 : Psd := ⟨none, none, some [leafW]⟩

/-! ### The claims -/

/-- C1: address round-trip law.  For every native tree serialized by the
first variant's `getCleanLayerTree`, resolving any produced id with the same
variant's `findLayerByPath` on the unmutated tree returns exactly the native
node that id was derived from.  `pairsAux` records the (id, source node)
pairs of the serializer's own traversal, and the second conjunct checks that
its ids are precisely the ids of the serialized tree. -/
theorem claim_C1_address_roundtrip (psd : Psd) (ls : List Layer)
    (h : psd.children = some ls) :
    (∀ pr ∈ V1.pairsAux ls [] 0, V1.findLayerByPath psd pr.1 = some pr.2) ∧
    V1.idsDeep (V1.getCleanLayerTree ls) = (V1.pairsAux ls [] 0).map Prod.fst := by
  constructor
  · intro pr hpr
    have hne := V1.pairsAux_fst_ne_nil ls [] 0 pr hpr
    unfold V1.findLayerByPath
    rw [if_neg hne]
    exact V1.walk_pairsAux ls [] 0 ls psd.children h rfl pr hpr
  · have hids := V1.idsDeep_serializeGo ls [] 0
    simpa [V1.getCleanLayerTree, encodePath] using hids

theorem claim_C1_witness :
    psdW.children = some [tmplGroupW, groupW] ∧
    V1.findLayerByPath psdW (encodePath [1, 0]) = some leafW := by
  have hpairs : V1.pairsAux [tmplGroupW, groupW] [] 0 =
      [(encodePath [1], groupW), (encodePath [1, 0], leafW)] := by
    rw [V1.pairsAux_cons_tmpl tmplGroupW rfl]
    rw [V1.pairsAux_cons_some groupW [leafW] (by decide) rfl]
    rw [V1.pairsAux_cons_none leafW (by decide) rfl]
    rw [V1.pairsAux_nil, V1.pairsAux_nil]
    simp
  have hmem : (encodePath [1, 0], leafW) ∈ V1.pairsAux [tmplGroupW, groupW] [] 0 := by
    rw [hpairs]
    exact List.mem_cons_of_mem _ (List.mem_cons_self _ _)
  exact ⟨rfl,
    (claim_C1_address_roundtrip psdW [tmplGroupW, groupW] rfl).1 _ hmem⟩

/-- C2 (amended): the first variant's `findLayerByPath` returns null — and,
being a total function into `Option`, cannot throw — whenever the id is
empty, some segment decodes to NaN, or the walk meets an out-of-range index
at any depth; the second variant still returns null (without throwing) for
an empty id, but its behaviour on a non-numeric or negative segment is the
TypeError shown in the counterexample. -/
theorem claim_C2_resolver_failure (psd : Psd) (pid : Str)
    (h : pid = [] ∨ (∃ seg ∈ jsSplit '.' pid, jsNumber seg = JSNum.nan) ∨
      V1.walkFails psd.children ((jsSplit '.' pid).map jsNumber) = true) :
    V1.findLayerByPath psd pid = none ∧
    V2.findLayerByPath psd [] = Except.ok none := by
  refine ⟨?_, rfl⟩
  by_cases he : pid = []
  · simp [V1.findLayerByPath, he]
  · unfold V1.findLayerByPath
    rw [if_neg he]
    rcases h with h | h | h
    · exact absurd h he
    · exact V1.walk_none_of_fails _ _ _
        (V1.fails_of_nan (jsSplit '.' pid) psd.children h)
    · exact V1.walk_none_of_fails _ _ _ h

theorem claim_C2_witness :
    V1.walkFails psdW1.children ((jsSplit '.' ['5']).map jsNumber) = true ∧
    V1.findLayerByPath psdW1 ['5'] = none :=
  ⟨by decide,
   (claim_C2_resolver_failure psdW1 ['5'] (Or.inr (Or.inr (by decide)))).1⟩

/-- C2 counterexample: in the second variant, the id "root-x" has the
non-numeric segment "x" (`parseInt` gives NaN); `NaN >= length` is false, so
`currentLayers[NaN]` is `undefined` and `currentLayer.children` throws a
TypeError instead of returning null. -/
theorem claim_C2_counterexample :
    jsParseInt ['x'] = none ∧
    V2.findLayerByPath psdW1 "root-x".data = Except.error () :=
  ⟨rfl, rfl⟩

/-- C3 (amended): in the first variant, `mapLayersToContainers` collects
exactly the per-group, per-child contributions (`groupIssues`/`childIssue`),
a fully-bounded child strictly inside its container contributes no issue,
and a child exceeding the container on at least one edge contributes exactly
one issue.  The second variant performs no containment checking (see the
counterexample). -/
theorem claim_C3_containment (psd : Psd) (tpl : TemplateMetadata)
    (cont : ContainerDefinition) (layer : Layer) (tv lv bv rv : Int)
    (h1 : layer.top = some tv) (h2 : layer.left = some lv)
    (h3 : layer.bottom = some bv) (h4 : layer.right = some rv) :
    (V1.mapLayersToContainers psd tpl).issues =
      (psd.children.getD []).flatMap (V1.groupIssues tpl) ∧
    ((cont.bounds.x < lv ∧ cont.bounds.y < tv ∧
      rv < cont.bounds.x + cont.bounds.w ∧ bv < cont.bounds.y + cont.bounds.h) →
      V1.childIssue cont layer = []) ∧
    ((lv < cont.bounds.x ∨ tv < cont.bounds.y ∨
      rv > cont.bounds.x + cont.bounds.w ∨ bv > cont.bounds.y + cont.bounds.h) →
      (V1.childIssue cont layer).length = 1) := by
  refine ⟨rfl, ?_, ?_⟩
  · intro hin
    simp only [V1.childIssue, h1, h2, h3, h4]
    rw [if_neg (by push_neg; omega)]
  · intro hex
    simp only [V1.childIssue, h1, h2, h3, h4]
    rw [if_pos hex]
    rfl

def contW : ContainerDefinition :=
  ⟨"container-0".data, "BG".data, "!!BG".data, ⟨0, 0, 200, 100⟩, ⟨0, 0, 1, 1⟩⟩

def layerX : Layer :=
  Layer.mk (some "X".data) none none (some (-5)) (some 0) (some 50) (some 50) none none

theorem claim_C3_witness :
    layerX.top = some (-5) ∧ (V1.childIssue contW layerX).length = 1 :=
  ⟨rfl,
   (claim_C3_containment psdW (V1.extractTemplateMetadata psdW) contW layerX
      (-5) 0 50 50 rfl rfl rfl rfl).2.2 (Or.inr (Or.inl (by decide)))⟩

def tmplChildC : Layer :=
  Layer.mk (some "!!SYMBOLS".data) none none (some 0) (some 0) (some 10) (some 10) none none

def tmplGroupC : Layer :=
  Layer.mk (some templateMarker) none none none none none none none (some [tmplChildC])

def badChildC : Layer :=
  Layer.mk (some "Bad".data) none none (some (-5)) (some 0) (some 5) (some 5) none none

def designGroupC : Layer :=
  Layer.mk (some "SYMBOLS".data) none none none none none none none (some [badChildC])

def psdC : Psd := ⟨some 10, some 10, some [tmplGroupC, designGroupC]⟩

def tplC : TemplateMetadata := V2.extractTemplateMetadata psdC

/-- C3 counterexample: the design group SYMBOLS holds a child whose top
(-5) lies above its container (y = 0), yet the second variant's
`mapLayersToContainers` reports no issue at all — it never compares any
layer against any container — while the first variant reports exactly one
issue for the same input. -/
theorem claim_C3_counterexample :
    (V2.mapLayersToContainers psdC tplC).issues = [] ∧
    (V1.mapLayersToContainers psdC tplC).issues.length = 1 :=
  ⟨rfl, rfl⟩

def payload0 : TransformedPayload := ⟨⟨⟨0, 0, none, none⟩⟩, [], none⟩

/-- C4 (amended): the second variant's `compositePayloadToCanvas` returns
null (`.ok none`, hence also never throws) whenever the target width or
height is non-positive; the first variant has no such guard and returns an
encoded string for a zero-size target (see the counterexample). -/
theorem claim_C4_nonpositive_target (payload : TransformedPayload) (psd : Psd)
    (ctxOk : Bool)
    (h : payload.metrics.target.w ≤ 0 ∨ payload.metrics.target.h ≤ 0) :
    V2.compositePayloadToCanvas payload psd ctxOk = Except.ok none := by
  unfold V2.compositePayloadToCanvas
  rw [if_pos h]

theorem claim_C4_witness :
    (payload0.metrics.target.w ≤ 0 ∨ payload0.metrics.target.h ≤ 0) ∧
    V2.compositePayloadToCanvas payload0 psdW1 true = Except.ok none :=
  ⟨Or.inl (by decide),
   claim_C4_nonpositive_target payload0 psdW1 true (Or.inl (by decide))⟩

/-- C4 counterexample: for a payload whose target size is {w:0, h:0} the
first variant's `compositePayloadToCanvas` does not return null — it
allocates the zero-size canvas and returns the encoded data URL. -/
theorem claim_C4_counterexample :
    payload0.metrics.target.w = 0 ∧ payload0.metrics.target.h = 0 ∧
    (V1.compositePayloadToCanvas (some payload0) (some psdW1) true).isSome = true :=
  ⟨rfl, rfl, rfl⟩

/-- C5 (amended): the first variant's `getCleanLayerTree` never emits a node
named `!!TEMPLATE` — the reserved root is filtered at every recursion level;
the second variant performs no such filtering (see the counterexample). -/
theorem claim_C5_no_template_in_serialization (ls : List Layer) (path : Str) :
    V1.hasNameDeep templateMarker (V1.getCleanLayerTree ls path) = false :=
  V1.serializeGo_no_template path ls 0

def tmplLeafC5 : Layer :=
  Layer.mk (some templateMarker) none none none none none none none none

theorem serializeGoV2_nil (parentId : Str) (i : Nat) :
    V2.serializeGo parentId [] i = [] := by
  simp [V2.serializeGo]

/-- C5 counterexample: the second variant's `getCleanLayerTree` keeps a
layer named `!!TEMPLATE` in its output. -/
theorem claim_C5_counterexample :
    V1.hasNameDeep templateMarker (V2.getCleanLayerTree [tmplLeafC5] "root".data) = true := by
  show V1.hasNameDeep templateMarker (V2.serializeGo "root".data [tmplLeafC5] 0) = true
  rw [V2.serializeGo_cons_none_v2 tmplLeafC5 rfl, serializeGoV2_nil,
    V1.hasNameDeep_cons_none, V1.hasNameDeep_nil]
  decide

def pixBroken : PixelSource := ⟨true⟩

def brokenLayer : Layer :=
  Layer.mk (some "B".data) none none none none none none (some pixBroken) none

def psdBroken : Psd := ⟨none, none, some [brokenLayer]⟩

def ctxW : V1.Ctx := ⟨psdBroken, 100, 100, none⟩

def lW : TransformedLayer :=
  TransformedLayer.mk ['0'] "layer".data true 1 ⟨0, 0, 10, 10⟩ ⟨none, none⟩ none

/-- C6 (amended): in the first variant a drawing failure on one layer's
pixel source is swallowed at that node — the node still emits its own
save/alpha/transform/restore commands, merely without the failed
`drawImage`; the sibling decomposition shows every other layer's commands
are computed independently and kept; and the composite still returns an
encoded result for every payload.  In the second variant the same failure
propagates and aborts the whole composite (see the counterexample). -/
theorem claim_C6_draw_failure_confined (P : V1.Ctx) (pre post : List TransformedLayer)
    (l : TransformedLayer) (ol : Layer) (src : PixelSource)
    (hres : V1.findLayerByPath P.psd l.id = some ol)
    (hcv : ol.canvas = some src) (hbr : src.broken = true)
    (hcull : V1.culled P l = false) (hvis : l.isVisible = true)
    (hch : l.children = none) (ht2 : ¬ l.type = "generative".data) :
    V1.layerOps P l =
      DrawOp.save ::
        (([DrawOp.setAlpha l.opacity,
           DrawOp.translate (l.coords.x + l.coords.w / 2)
             (l.coords.y + l.coords.h / 2)] ++
          (if jsTruthyRat l.transform.rotation then
            [DrawOp.rotateDeg (l.transform.rotation.getD 0)]
           else [])) ++ [DrawOp.restore]) ∧
    V1.levelOps P (pre ++ l :: post) =
      (post.reverse).flatMap (V1.layerOps P) ++ V1.layerOps P l ++
        (pre.reverse).flatMap (V1.layerOps P) ∧
    ∀ (p : TransformedPayload) (s : Psd),
      (V1.compositePayloadToCanvas (some p) (some s) true).isSome = true := by
  refine ⟨?_, ?_, fun p s => rfl⟩
  · rw [V1.layerOps_pixel_none P l hcull hvis hch ht2,
      V1.pixelOps_broken P l hres hcv hbr]
  · rw [V1.levelOps_reverse]
    simp [List.flatMap_append]

theorem claim_C6_witness :
    pixBroken.broken = true ∧
    V1.layerOps ctxW lW =
      DrawOp.save ::
        (([DrawOp.setAlpha lW.opacity,
           DrawOp.translate (lW.coords.x + lW.coords.w / 2)
             (lW.coords.y + lW.coords.h / 2)] ++
          (if jsTruthyRat lW.transform.rotation then
            [DrawOp.rotateDeg (lW.transform.rotation.getD 0)]
           else [])) ++ [DrawOp.restore]) :=
  ⟨rfl,
   (claim_C6_draw_failure_confined ctxW [] [] lW brokenLayer pixBroken
      rfl rfl rfl (by simp [V1.culled, ctxW, lW, TransformedLayer.coords])
      rfl rfl (by decide)).1⟩

def lW2 : TransformedLayer :=
  TransformedLayer.mk "root-0".data "layer".data true 1 ⟨0, 0, 10, 10⟩ ⟨none, none⟩ none

def payloadBroken : TransformedPayload := ⟨⟨⟨10, 10, none, none⟩⟩, [lW2], none⟩

/-- C6 counterexample: the second variant has no try/catch around
`ctx.drawImage`; with one visible pixel layer whose source is broken the
whole `compositePayloadToCanvas` call throws instead of returning an
encoded result. -/
theorem claim_C6_counterexample :
    V2.compositePayloadToCanvas payloadBroken psdBroken true = Except.error () := by
  have h2 : V2.layerOps ⟨psdBroken, 0, 0⟩ lW2 = Except.error () := by
    rw [V2.layerOps_pixel_no_children ⟨psdBroken, 0, 0⟩ lW2 rfl (by decide)
      (by decide) rfl]
    rfl
  have h3 : V2.levelOps ⟨psdBroken, 0, 0⟩ [lW2] = Except.error () := by
    rw [V2.levelOps_loop_v2]
    show V2.loopOps _ [lW2] 1 = _
    rw [V2.loopOps_succ_v2 ⟨psdBroken, 0, 0⟩ [lW2] 0
      (show ([lW2] : List TransformedLayer)[0]? = some lW2 from rfl), h2]
  calc V2.compositePayloadToCanvas payloadBroken psdBroken true
      = (match V2.levelOps ⟨psdBroken, 0, 0⟩ [lW2] with
         | .error e => .error e
         | .ok tr => .ok (some (tr, V2.pngUrl))) := by rfl
    _ = Except.error () := by rw [h3]

/-- C7: both variants paint each sibling array in reverse index order —
the downward loop equals, in the first variant, a flat concatenation of
per-layer command traces over the reversed list (so index 0's commands come
last, topmost under the painter's algorithm), and in the second variant a
sequential processing of the reversed list; the last conjunct ties the
first variant's `drawLayers` trace into `compositePayloadToCanvas`. -/
theorem claim_C7_reverse_paint_order (P : V1.Ctx) (Q : V2.Ctx)
    (l : TransformedLayer) (rest : List TransformedLayer) :
    (∀ ls : List TransformedLayer,
      V1.levelOps P ls = (ls.reverse).flatMap (V1.layerOps P)) ∧
    (∀ ls : List TransformedLayer, V2.levelOps Q ls = V2.chain Q ls.reverse) ∧
    V1.levelOps P (l :: rest) =
      (rest.reverse).flatMap (V1.layerOps P) ++ V1.layerOps P l ∧
    (∀ (p : TransformedPayload) (s : Psd),
      V1.compositePayloadToCanvas (some p) (some s) true =
        some (V1.initOps p ++ V1.levelOps (V1.mkCtx p s) p.layers, V1.jpegUrl)) := by
  refine ⟨V1.levelOps_reverse P, V2.levelOps_chain_reverse Q, ?_, fun p s => rfl⟩
  rw [V1.levelOps_reverse]
  simp [List.flatMap_append]

/-- C8: both variants of `extractTemplateMetadata` produce canvas
dimensions of at least 1 for every input — `psd.width || 1` (and height)
replaces an absent or zero size by 1, so the normalized-bounds divisions
never divide by zero. -/
theorem claim_C8_canvas_min_one (psd : Psd) :
    1 ≤ (V1.extractTemplateMetadata psd).canvas.width ∧
    1 ≤ (V1.extractTemplateMetadata psd).canvas.height ∧
    1 ≤ (V2.extractTemplateMetadata psd).canvas.width ∧
    1 ≤ (V2.extractTemplateMetadata psd).canvas.height := by
  have hW : ∀ o : Option Nat, 1 ≤ jsOrNat o 1 := by
    intro o
    match o with
    | none => simp [jsOrNat]
    | some v =>
      by_cases hv : v = 0 <;> simp [jsOrNat, hv] <;> omega
  exact ⟨hW psd.width, hW psd.height, hW psd.width, hW psd.height⟩

/-- C9: in both variants, every direct child of the template group yields
one container — the container count equals the direct-child count — and a
child with no bounding-box fields yields a degenerate zero-area container
rather than being skipped. -/
theorem claim_C9_degenerate_children (psd : Psd) (g : Layer) (cs : List Layer)
    (hg : templateGroupOf psd = some g) (hch : g.children = some cs) :
    ((V1.extractTemplateMetadata psd).containers.length = cs.length ∧
     (V2.extractTemplateMetadata psd).containers.length = cs.length) ∧
    ∀ (i : Nat) (c : Layer), cs[i]? = some c →
      c.top = none → c.left = none → c.bottom = none → c.right = none →
      ∃ cdA cdB,
        (V1.extractTemplateMetadata psd).containers[i]? = some cdA ∧
        cdA.bounds = ⟨0, 0, 0, 0⟩ ∧
        (V2.extractTemplateMetadata psd).containers[i]? = some cdB ∧
        cdB.bounds = ⟨0, 0, 0, 0⟩ := by
  have hcont1 : (V1.extractTemplateMetadata psd).containers =
      cs.enum.map (fun p =>
        V1.mkContainer (jsOrNat psd.width 1) (jsOrNat psd.height 1) p.1 p.2) := by
    simp only [V1.extractTemplateMetadata, hg, hch]
  have hcont2 : (V2.extractTemplateMetadata psd).containers =
      cs.enum.map (fun p =>
        V2.mkContainer (jsOrNat psd.width 1) (jsOrNat psd.height 1) p.1 p.2) := by
    simp only [V2.extractTemplateMetadata, hg, hch]
  refine ⟨⟨by rw [hcont1]; simp, by rw [hcont2]; simp⟩, ?_⟩
  intro i c hic ht hl hb hr
  refine ⟨V1.mkContainer (jsOrNat psd.width 1) (jsOrNat psd.height 1) i c,
          V2.mkContainer (jsOrNat psd.width 1) (jsOrNat psd.height 1) i c,
          ?_, ?_, ?_, ?_⟩
  · rw [hcont1]
    simp [List.getElem?_enum, hic]
  · simp [V1.mkContainer, ht, hl, hb, hr]
  · rw [hcont2]
    simp [List.getElem?_enum, hic]
  · simp [V2.mkContainer, ht, hl, hb, hr]

def bareChildW : Layer := Layer.mk none none none none none none none none none

def tmplGroupW9 : Layer :=
  Layer.mk (some templateMarker) none none none none none none none (some [bareChildW])

def psdW9 : Psd := ⟨some 50, some 50, some [tmplGroupW9]⟩

theorem claim_C9_witness :
    (V1.extractTemplateMetadata psdW9).containers.length = 1 ∧
    ∃ cdA cdB,
      (V1.extractTemplateMetadata psdW9).containers[0]? = some cdA ∧
      cdA.bounds = ⟨0, 0, 0, 0⟩ ∧
      (V2.extractTemplateMetadata psdW9).containers[0]? = some cdB ∧
      cdB.bounds = ⟨0, 0, 0, 0⟩ :=
  ⟨(claim_C9_degenerate_children psdW9 tmplGroupW9 [bareChildW] rfl rfl).1.1,
   (claim_C9_degenerate_children psdW9 tmplGroupW9 [bareChildW] rfl rfl).2
     0 bareChildW rfl rfl rfl rfl rfl⟩

/-- C10: the two copies of `extractTemplateMetadata` agree on the canvas
dimensions and, container by container, on the pixel bounds and the
normalized bounds, for every input; they differ only in the id string and
in the default name of an unnamed child, neither of which enters these
fields. -/
theorem claim_C10_extract_equivalence (psd : Psd) :
    (V1.extractTemplateMetadata psd).canvas = (V2.extractTemplateMetadata psd).canvas ∧
    (V1.extractTemplateMetadata psd).containers.map (fun c => c.bounds) =
      (V2.extractTemplateMetadata psd).containers.map (fun c => c.bounds) ∧
    (V1.extractTemplateMetadata psd).containers.map (fun c => c.normalized) =
      (V2.extractTemplateMetadata psd).containers.map (fun c => c.normalized) := by
  refine ⟨rfl, ?_, ?_⟩ <;>
  · cases hg : templateGroupOf psd with
    | none =>
      have e1 : (V1.extractTemplateMetadata psd).containers = [] := by
        simp only [V1.extractTemplateMetadata, hg]
      have e2 : (V2.extractTemplateMetadata psd).containers = [] := by
        simp only [V2.extractTemplateMetadata, hg]
      rw [e1, e2]
    | some g =>
      cases hch : g.children with
      | none =>
        have e1 : (V1.extractTemplateMetadata psd).containers = [] := by
          simp only [V1.extractTemplateMetadata, hg, hch]
        have e2 : (V2.extractTemplateMetadata psd).containers = [] := by
          simp only [V2.extractTemplateMetadata, hg, hch]
        rw [e1, e2]
      | some cs =>
        have e1 : (V1.extractTemplateMetadata psd).containers =
            cs.enum.map (fun p =>
              V1.mkContainer (jsOrNat psd.width 1) (jsOrNat psd.height 1) p.1 p.2) := by
          simp only [V1.extractTemplateMetadata, hg, hch]
        have e2 : (V2.extractTemplateMetadata psd).containers =
            cs.enum.map (fun p =>
              V2.mkContainer (jsOrNat psd.width 1) (jsOrNat psd.height 1) p.1 p.2) := by
          simp only [V2.extractTemplateMetadata, hg, hch]
        rw [e1, e2, List.map_map, List.map_map]
        exact List.map_congr_left (fun p _ => rfl)
